import Mathlib

/-!
Verification development for the M2/WMO model decoding and skeletal animation
core of the WoWee repository (src/tools/m2_viewer.py).

The Python source is shallowly embedded here:
* byte buffers are `List Nat` (each entry one byte, little-endian multi-byte reads);
* `struct.unpack_from` (which raises `struct.error` past the end of the buffer)
  is modelled by `Option`-valued reads, with `none` standing for the exception;
* IEEE-754 `f32` fields whose numeric value is never consumed by a verified
  property are kept as their 32-bit little-endian bit patterns;
* float arithmetic that *is* consumed (vertex skinning, animation-time
  bookkeeping, keyframe interpolation) is modelled exactly over `ℚ`, and the
  quaternion operations that need `sqrt`/`acos`/`sin` over `ℝ`.
-/

/-! ## Little-endian byte reads (struct.unpack_from / np.frombuffer) -/

/-- Byte at index `i` of a buffer. Only ever consumed at indices that the
source's own bounds guards keep inside the buffer, or behind `readU32q`
which models the out-of-bounds exception as `none`. -/
def byteAt (d : List Nat) (i : Nat) : Nat := d.getD i 0

/-- Little-endian u16 at offset `i` (np.uint16 entries). -/
def leU16 (d : List Nat) (i : Nat) : Nat := byteAt d i + 256 * byteAt d (i + 1)

/-- Little-endian u32 at offset `i` (struct `<I`). -/
def leU32 (d : List Nat) (i : Nat) : Nat :=
  byteAt d i + 256 * byteAt d (i + 1) + 65536 * byteAt d (i + 2) +
    16777216 * byteAt d (i + 3)

/-- Little-endian signed i16 at offset `i` (struct `<h`), two's complement. -/
def leI16 (d : List Nat) (i : Nat) : Int :=
  let v := byteAt d i + 256 * byteAt d (i + 1)
  if v < 32768 then (v : Int) else (v : Int) - 65536

/-- Little-endian signed i32 at offset `i` (struct `<i`), two's complement. -/
def leI32 (d : List Nat) (i : Nat) : Int :=
  let v := leU32 d i
  if v < 2147483648 then (v : Int) else (v : Int) - 4294967296

/-- `struct.unpack_from("<I", d, i)`: `some` of the u32 when the four bytes
exist, `none` for the `struct.error` exception. -/
def readU32q (d : List Nat) (i : Nat) : Option Nat :=
  if i + 4 ≤ d.length then some (leU32 d i) else none

/-! ## Exact-rational vectors and matrices (the NumPy float math) -/

def Vec3 : Type := Fin 3 → ℚ

def Vec4 : Type := Fin 4 → ℚ

def Mat4 : Type := Fin 4 → Fin 4 → ℚ

instance : DecidableEq Vec3 := fun a b => Fintype.decidablePiFintype a b
instance : DecidableEq Vec4 := fun a b => Fintype.decidablePiFintype a b
instance : DecidableEq Mat4 := fun a b => Fintype.decidablePiFintype a b

/-- Zero 4-vector. -/
def zeroV4 : Vec4 := fun _ => 0

/-- Componentwise sum of 4-vectors. -/
def addV4 (a b : Vec4) : Vec4 := fun i => a i + b i

/-- 4x4 identity matrix (np.eye(4)). -/
def idMat4 : Mat4 := fun i j => if i = j then 1 else 0

/-- Matrix–vector product, row `i` of `m @ v`. -/
def matVec (m : Mat4) (v : Vec4) : Vec4 := fun i =>
  m i 0 * v 0 + m i 1 * v 1 + m i 2 * v 2 + m i 3 * v 3

/-- Scale a 4-vector by a rational. -/
def smulVec4 (c : ℚ) (v : Vec4) : Vec4 := fun i => c * v i

/-! ## Vertex skinning (AnimationSystem.skin_vertices)

The NumPy implementation is vectorised over the whole vertex array but each
vertex's accumulation is independent, so it is embedded per vertex.  Weights
are the raw u8 values, normalised by /255 exactly as the source does; the two
`0.001` float epsilons are the exact rational `1/1000` (no reachable weight
`k/255` or accumulated homogeneous coordinate distinguishes the float constant
from the exact one at the comparisons the source performs). -/

/-- One decoded vertex as `skin_vertices` consumes it: rest-pose position plus
four raw u8 (weight, boneIndex) pairs. -/
structure SkinVert where
  pos : Vec3
  weights : Fin 4 → Nat
  bones : Fin 4 → Nat

/-- Contribution of one (weight, boneIndex) pair: zero when the normalised
weight is at or below the epsilon, or when the bone-lookup index or looked-up
bone index is out of range (`valid2` masking in the source); otherwise the
weighted transform of the homogeneous position. -/
def skinContrib (mats : List Mat4) (lookup : List Nat) (p4 : Vec4)
    (wRaw : Nat) (bIdx : Nat) : Vec4 :=
  if ((wRaw : ℚ) / 255) > 1 / 1000 then
    if bIdx < lookup.length ∧ lookup.getD bIdx 0 < mats.length then
      smulVec4 ((wRaw : ℚ) / 255) (matVec (mats.getD (lookup.getD bIdx 0) idMat4) p4)
    else zeroV4
  else zeroV4

/-- Homogeneous position `[x, y, z, 1]` of a vertex. -/
def homog (p : Vec3) : Vec4 := fun i =>
  if h : (i : Nat) < 3 then p ⟨i, h⟩ else 1

/-- Skin a single vertex: accumulate the four pair contributions, then
de-homogenise with the accumulated `w` clamped to `1` when `|w| ≤ 0.001`. -/
def skinVertex (mats : List Mat4) (lookup : List Nat) (v : SkinVert) : Vec3 :=
  let p4 := homog v.pos
  let res : Vec4 :=
    addV4 (addV4 (addV4
      (skinContrib mats lookup p4 (v.weights 0) (v.bones 0))
      (skinContrib mats lookup p4 (v.weights 1) (v.bones 1)))
      (skinContrib mats lookup p4 (v.weights 2) (v.bones 2)))
      (skinContrib mats lookup p4 (v.weights 3) (v.bones 3))
  let wcol : ℚ := if |res 3| > 1 / 1000 then res 3 else 1
  fun i => res i.castSucc / wcol

/-- `AnimationSystem.skin_vertices`: early-return a copy of the rest-pose
positions when the bone world-matrix buffer or the bone-lookup table is empty,
otherwise skin every vertex. -/
def skinVertices (mats : List Mat4) (lookup : List Nat)
    (verts : List SkinVert) : List Vec3 :=
  if mats.length = 0 ∨ lookup.length = 0 then verts.map (·.pos)
  else verts.map (skinVertex mats lookup)

/-! ## Animation clock and global-sequence time resolution -/

/-- Python `a % b` for floats with a positive divisor: `a - b * ⌊a / b⌋`.
Every call site in the source guards the divisor with `> 0`. -/
def qmod (a b : ℚ) : ℚ := a - b * ⌊a / b⌋

/-- Decoded animation-sequence record (M2Animation). `duration` is `ℤ`
because the vanilla layout computes it as `end − start` on Python ints. The
playback speed f32 is kept as its bit pattern. -/
structure M2AnimE where
  animId : Nat
  variation : Nat
  duration : Int
  speedBits : Nat
  flags : Nat
deriving DecidableEq

def defaultAnim : M2AnimE := ⟨0, 0, 0, 0, 0⟩

/-- Per-sequence vector track as the evaluator consumes it (translation and
scale): per-slot millisecond timestamps and vec3 keys, exact rationals. -/
structure TrackV where
  interp : Int
  globalSeq : Int
  timestamps : List (List ℚ)
  keys : List (List Vec3)

/-- Quaternion value (x, y, z, w) over `ℝ`, as slerp needs `sqrt`/`acos`. -/
def QuatR : Type := Fin 4 → ℝ

/-- Per-sequence quaternion (rotation) track as the evaluator consumes it. -/
structure TrackQ where
  interp : Int
  globalSeq : Int
  timestamps : List (List ℚ)
  keys : List (List QuatR)

/-- Bone as the animation evaluator consumes it (M2Bone). -/
structure BoneE where
  keyBoneId : Int
  flags : Nat
  parent : Int
  pivot : Vec3
  translation : TrackV
  rotation : TrackQ
  scale : TrackV

/-- `AnimationSystem._get_time_and_seq`: a track carrying a valid
global-sequence id resolves to sequence slot 0 and time
`time_ms mod globalSequenceDuration` (0 for a zero duration); any other track
resolves to the active clip's slot and the clip clock unchanged.  Note the
source passes its own `self.time_ms` — the active clip's clock — as `time_ms`.
-/
def getTimeAndSeq (globalSeqs : List Nat) (gseq : Int) (seqIdx : Nat)
    (timeMs : ℚ) : Nat × ℚ :=
  if 0 ≤ gseq ∧ gseq.toNat < globalSeqs.length then
    let gsDur := globalSeqs.getD gseq.toNat 0
    (0, if 0 < gsDur then qmod timeMs (gsDur : ℚ) else 0)
  else
    (seqIdx, timeMs)

/-- The clock-advance portion of `AnimationSystem.update`: no advance without
bones; while playing with a nonempty animation table and a positive duration
for the current sequence, advance by `dt·1000·speed` and wrap modulo the
active clip's own duration. -/
def updateTime (bones : List BoneE) (anims : List M2AnimE) (playing : Bool)
    (speed : ℚ) (currentSeq : Nat) (timeMs : ℚ) (dt : ℚ) : ℚ :=
  if bones.isEmpty then timeMs
  else if playing ∧ ¬anims.isEmpty then
    let anim := anims.getD currentSeq defaultAnim
    if 0 < anim.duration then
      qmod (timeMs + dt * 1000 * speed) (anim.duration : ℚ)
    else timeMs
  else timeMs

/-! ## Keyframe interpolation (AnimationSystem._interp_vec3 / _interp_quat)

The NumPy `searchsorted(ts, t, side=right)` over the (ascending) timestamp
array is the count of entries `≤ t`; the source clamps the bracketing index
into `[0, len-2]` with `max 0 / min`, which over `Nat` subtraction is
`min (count - 1) (len - 2)`.  The source indexes `keys[idx]` unguarded;
the embedding totalises those reads with `getD`, which agrees on every input
the guards let through.  The source's extra 1-D-shape guard
(`len(keys.shape) == 1` returns the default) is subsumed by the typed key
lists: the only 1-D key arrays the bone-track decoders ever produce are
empty, which the emptiness guard already returns the default for. -/

/-- Bracketing index for the interior case: `searchsorted right − 1` clamped
into `[0, len−2]`. -/
def bracketIdx (ts : List ℚ) (t : ℚ) : Nat :=
  min (ts.countP (fun x => decide (x ≤ t)) - 1) (ts.length - 2)

/-- `AnimationSystem._interp_vec3`. -/
def interpVec3 (globalSeqs : List Nat) (tr : TrackV) (seqIdx : Nat)
    (timeMs : ℚ) (dflt : Vec3) : Vec3 :=
  let st := getTimeAndSeq globalSeqs tr.globalSeq seqIdx timeMs
  let si := st.1
  let t := st.2
  if tr.timestamps.length ≤ si ∨ tr.keys.length ≤ si then dflt
  else
    let ts := tr.timestamps.getD si []
    let ks := tr.keys.getD si []
    if ts.isEmpty ∨ ks.isEmpty then dflt
    else if t ≤ ts.headD 0 then ks.headD dflt
    else if ts.getLastD 0 ≤ t then ks.getLastD dflt
    else
      let idx := bracketIdx ts t
      let t0 := ts.getD idx 0
      let t1 := ts.getD (idx + 1) 0
      let frac := if t1 ≠ t0 then (t - t0) / (t1 - t0) else 0
      if tr.interp = 0 then ks.getD idx dflt
      else fun i => (1 - frac) * (ks.getD idx dflt) i + frac * (ks.getD (idx + 1) dflt) i

/-- Quaternion slerp exactly as the source computes it, over `ℝ`: flip the
second quaternion when the dot is negative, clamp the dot to 1, take the
normalised linear blend when the quaternions are nearly parallel
(`dot > 0.9995`), otherwise the sine-weighted spherical blend, renormalising
the result. Degenerate denominators follow the `ℝ` convention `x / 0 = 0`. -/
noncomputable def slerp (q0 q1 : QuatR) (t : ℝ) : QuatR :=
  let dot0 : ℝ := q0 0 * q1 0 + q0 1 * q1 1 + q0 2 * q1 2 + q0 3 * q1 3
  let q1f : QuatR := if dot0 < 0 then (fun i => -(q1 i)) else q1
  let dot1 : ℝ := if dot0 < 0 then -dot0 else dot0
  let dot : ℝ := min dot1 1
  if 9995 / 10000 < dot then
    let r : QuatR := fun i => q0 i + t * (q1f i - q0 i)
    let n := Real.sqrt (r 0 ^ 2 + r 1 ^ 2 + r 2 ^ 2 + r 3 ^ 2)
    fun i => r i / n
  else
    let theta := Real.arccos dot
    let s := Real.sin theta
    let a := Real.sin ((1 - t) * theta) / s
    let b := Real.sin (t * theta) / s
    let r : QuatR := fun i => a * q0 i + b * q1f i
    let n := Real.sqrt (r 0 ^ 2 + r 1 ^ 2 + r 2 ^ 2 + r 3 ^ 2)
    fun i => r i / n

/-- Identity quaternion (0, 0, 0, 1), the default rotation. -/
noncomputable def quatIdent : QuatR := fun i => if (i : Nat) = 3 then 1 else 0

/-- `AnimationSystem._interp_quat`. -/
noncomputable def interpQuat (globalSeqs : List Nat) (tr : TrackQ)
    (seqIdx : Nat) (timeMs : ℚ) : QuatR :=
  let dflt := quatIdent
  let st := getTimeAndSeq globalSeqs tr.globalSeq seqIdx timeMs
  let si := st.1
  let t := st.2
  if tr.timestamps.length ≤ si ∨ tr.keys.length ≤ si then dflt
  else
    let ts := tr.timestamps.getD si []
    let ks := tr.keys.getD si []
    if ts.isEmpty ∨ ks.isEmpty then dflt
    else if t ≤ ts.headD 0 then ks.headD dflt
    else if ts.getLastD 0 ≤ t then ks.getLastD dflt
    else
      let idx := bracketIdx ts t
      let t0 := ts.getD idx 0
      let t1 := ts.getD (idx + 1) 0
      let frac := if t1 ≠ t0 then (t - t0) / (t1 - t0) else 0
      if tr.interp = 0 then ks.getD idx dflt
      else slerp (ks.getD idx dflt) (ks.getD (idx + 1) dflt) (frac : ℝ)

/-! ## Local bone transform (AnimationSystem._eval_bone) -/

def Mat4R : Type := Fin 4 → Fin 4 → ℝ

/-- 4x4 real matrix product. -/
noncomputable def matMulR (a b : Mat4R) : Mat4R := fun i k =>
  a i 0 * b 0 k + a i 1 * b 1 k + a i 2 * b 2 k + a i 3 * b 3 k

/-- `translate(tx, ty, tz)`. -/
noncomputable def translateM (tx ty tz : ℝ) : Mat4R := fun i j =>
  if i = j then 1 else if (j : Nat) = 3 then
    if (i : Nat) = 0 then tx else if (i : Nat) = 1 then ty
    else if (i : Nat) = 2 then tz else 0
  else 0

/-- `scale_mat4(sx, sy, sz)`. -/
noncomputable def scaleM (sx sy sz : ℝ) : Mat4R := fun i j =>
  if i = j then
    if (i : Nat) = 0 then sx else if (i : Nat) = 1 then sy
    else if (i : Nat) = 2 then sz else 1
  else 0

/-- `quat_to_mat4(q)` for q = (x, y, z, w). -/
noncomputable def quatToMat4 (q : QuatR) : Mat4R :=
  let x := q 0
  let y := q 1
  let z := q 2
  let w := q 3
  fun i j =>
    if (i : Nat) = 0 then
      if (j : Nat) = 0 then 1 - 2 * (y * y + z * z)
      else if (j : Nat) = 1 then 2 * (x * y - z * w)
      else if (j : Nat) = 2 then 2 * (x * z + y * w) else 0
    else if (i : Nat) = 1 then
      if (j : Nat) = 0 then 2 * (x * y + z * w)
      else if (j : Nat) = 1 then 1 - 2 * (x * x + z * z)
      else if (j : Nat) = 2 then 2 * (y * z - x * w) else 0
    else if (i : Nat) = 2 then
      if (j : Nat) = 0 then 2 * (x * z - y * w)
      else if (j : Nat) = 1 then 2 * (y * z + x * w)
      else if (j : Nat) = 2 then 1 - 2 * (x * x + y * y) else 0
    else if (j : Nat) = 3 then 1 else 0

/-- Zero vec3 and unit vec3: the caller-supplied defaults for translation and
scale in `_eval_bone`. -/
def zeroV3 : Vec3 := fun _ => 0

def onesV3 : Vec3 := fun _ => 1

/-- `AnimationSystem._eval_bone`:
`T(pivot) · T(translation) · R(rotation) · S(scale) · T(−pivot)`,
left-folded exactly as the source chains `m = m @ …`. -/
noncomputable def evalBone (globalSeqs : List Nat) (b : BoneE) (seqIdx : Nat)
    (timeMs : ℚ) : Mat4R :=
  let trans := interpVec3 globalSeqs b.translation seqIdx timeMs zeroV3
  let rot := interpQuat globalSeqs b.rotation seqIdx timeMs
  let scl := interpVec3 globalSeqs b.scale seqIdx timeMs onesV3
  let p := b.pivot
  matMulR
    (matMulR
      (matMulR
        (matMulR (translateM (p 0 : ℝ) (p 1 : ℝ) (p 2 : ℝ))
          (translateM (trans 0 : ℝ) (trans 1 : ℝ) (trans 2 : ℝ)))
        (quatToMat4 rot))
      (scaleM (scl 0 : ℝ) (scl 1 : ℝ) (scl 2 : ℝ)))
    (translateM (-(p 0 : ℝ)) (-(p 1 : ℝ)) (-(p 2 : ℝ)))

/-! ## Compressed-quaternion key decoding (M2Parser._parse_track_wotlk)

The source decompresses each i16 component with
`np.where(raw < 0, raw + 32768.0, raw - 32767.0) / 32767.0` and only then
renormalises each 4-vector by `max(‖·‖, 1e-10)`. -/

/-- Per-component conversion exactly as the source's `np.where` writes it. -/
def decompQuatComponent (v : Int) : ℚ :=
  (if v < 0 then (v : ℚ) + 32768 else (v : ℚ) - 32767) / 32767

/-- Renormalise a 4-vector to unit length with the denominator clamped to
`1e-10` (`np.maximum(norms, 1e-10)`). -/
noncomputable def normalizeClamped (q : Fin 4 → ℝ) : Fin 4 → ℝ :=
  let n := max (Real.sqrt (q 0 ^ 2 + q 1 ^ 2 + q 2 ^ 2 + q 3 ^ 2)) (1 / 10 ^ 10)
  fun i => q i / n

/-- One compressed-quaternion key as the source decodes it:
convert all four components, then renormalise the 4-vector. -/
noncomputable def decompressQuatKey (raw : Fin 4 → Int) : Fin 4 → ℝ :=
  normalizeClamped (fun i => ((decompQuatComponent (raw i) : ℚ) : ℝ))

/-- Modelled from the spec: per-component conversion written as the spec
states it, `v ≥ 0 ? (v − 32767)/32767 : (v + 32768)/32767`. -/
def spec_quatComponent (v : Int) : ℚ :=
  if 0 ≤ v then ((v : ℚ) - 32767) / 32767 else ((v : ℚ) + 32768) / 32767

/-- Modelled from the spec: convert each component first, then renormalise
the 4-vector with the clamped denominator (convert-then-normalize order). -/
noncomputable def spec_decompressQuatKey (raw : Fin 4 → Int) : Fin 4 → ℝ :=
  normalizeClamped (fun i => ((spec_quatComponent (raw i) : ℚ) : ℝ))

/-! ## M2 header parsing (M2Parser)

Each `_parse_*` method reads its `(count, offset)` header pair with
`struct.unpack_from` (modelled by `readU32q`: `none` is the `struct.error`
exception) and then, exactly as the source, returns its initial empty value
when the count is zero, above the field's sanity ceiling, or the extent
`offset + count · elementSize` overflows the buffer.  Header-field offsets
come from the version-gated `_hdr` tables. -/

/-- `_hdr` offsets for the vertex array: `(nVerts, ofsVerts)`. -/
def vertsHdr (vanilla : Bool) : Nat × Nat :=
  if vanilla then (68, 72) else (60, 64)

/-- `_hdr` offsets for the texture array. -/
def texturesHdr (vanilla : Bool) : Nat × Nat :=
  if vanilla then (92, 96) else (80, 84)

/-- `_hdr` offsets for the texture-lookup array. -/
def textureLookupHdr (vanilla : Bool) : Nat × Nat :=
  if vanilla then (148, 152) else (128, 132)

/-- `_hdr` offsets for the bone-lookup array. -/
def boneLookupHdr (vanilla : Bool) : Nat × Nat :=
  if vanilla then (140, 144) else (120, 124)

/-- `_hdr` offsets for the animation-sequence array (same in both layouts). -/
def animsHdr : Nat × Nat := (28, 32)

/-- `_hdr` offsets for the bone array. -/
def bonesHdr (vanilla : Bool) : Nat × Nat :=
  if vanilla then (52, 56) else (44, 48)

/-- `_hdr` offsets for the global-sequence array (same in both layouts). -/
def globalSeqHdr : Nat × Nat := (20, 24)

/-- `M2Parser._parse_global_sequences`. -/
def parseGlobalSequences (d : List Nat) : Option (List Nat) := do
  let n ← readU32q d globalSeqHdr.1
  let o ← readU32q d globalSeqHdr.2
  if n = 0 ∨ n > 10000 ∨ o + n * 4 > d.length then pure []
  else pure ((List.range n).map fun i => leU32 d (o + 4 * i))

/-- One raw 48-byte vertex record; the f32 fields are kept as bit patterns. -/
structure M2VertexRec where
  posBits : Fin 3 → Nat
  weights : Fin 4 → Nat
  boneIdx : Fin 4 → Nat
  normalBits : Fin 3 → Nat
  uvBits : Fin 2 → Nat

/-- Decode the 48-byte vertex record at byte offset `b`. -/
def vertexRecAt (d : List Nat) (b : Nat) : M2VertexRec where
  posBits := fun k => leU32 d (b + 4 * (k : Nat))
  weights := fun k => byteAt d (b + 12 + (k : Nat))
  boneIdx := fun k => byteAt d (b + 16 + (k : Nat))
  normalBits := fun k => leU32 d (b + 20 + 4 * (k : Nat))
  uvBits := fun k => leU32 d (b + 32 + 4 * (k : Nat))

/-- `M2Parser._parse_vertices`. -/
def parseVertices (d : List Nat) (vanilla : Bool) :
    Option (List M2VertexRec) := do
  let n ← readU32q d (vertsHdr vanilla).1
  let o ← readU32q d (vertsHdr vanilla).2
  if n = 0 ∨ n > 500000 ∨ o + n * 48 > d.length then pure []
  else pure ((List.range n).map fun i => vertexRecAt d (o + 48 * i))

/-- Decoded texture descriptor; `filename` is the raw byte string up to the
first NUL (ascii decoding with replacement never fails). -/
structure M2TexE where
  texType : Nat
  texFlags : Nat
  filename : List Nat
deriving DecidableEq

/-- `M2Parser._parse_textures`. -/
def parseTextures (d : List Nat) (vanilla : Bool) : Option (List M2TexE) := do
  let n ← readU32q d (texturesHdr vanilla).1
  let o ← readU32q d (texturesHdr vanilla).2
  if n = 0 ∨ n > 1000 ∨ o + n * 16 > d.length then pure []
  else
    pure ((List.range n).map fun i =>
      let base := o + 16 * i
      let tType := leU32 d base
      let tFlags := leU32 d (base + 4)
      let nameLen := leU32 d (base + 8)
      let nameOfs := leU32 d (base + 12)
      let filename :=
        if tType = 0 ∧ 1 < nameLen ∧ nameOfs + nameLen ≤ d.length then
          (((List.range nameLen).map fun k => byteAt d (nameOfs + k)).takeWhile
            fun b => b ≠ 0)
        else []
      ⟨tType, tFlags, filename⟩)

/-- `M2Parser._parse_texture_lookup`. -/
def parseTextureLookup (d : List Nat) (vanilla : Bool) :
    Option (List Nat) := do
  let n ← readU32q d (textureLookupHdr vanilla).1
  let o ← readU32q d (textureLookupHdr vanilla).2
  if n = 0 ∨ n > 10000 ∨ o + n * 2 > d.length then pure []
  else pure ((List.range n).map fun i => leU16 d (o + 2 * i))

/-- `M2Parser._parse_bone_lookup`. -/
def parseBoneLookup (d : List Nat) (vanilla : Bool) : Option (List Nat) := do
  let n ← readU32q d (boneLookupHdr vanilla).1
  let o ← readU32q d (boneLookupHdr vanilla).2
  if n = 0 ∨ n > 10000 ∨ o + n * 2 > d.length then pure []
  else pure ((List.range n).map fun i => leU16 d (o + 2 * i))

/-- `M2Parser._parse_animations`: 68-byte records with `duration = end − start`
in the vanilla layout, 64-byte records with a direct u32 duration otherwise. -/
def parseAnimations (d : List Nat) (vanilla : Bool) :
    Option (List M2AnimE) := do
  let n ← readU32q d animsHdr.1
  let o ← readU32q d animsHdr.2
  if n = 0 ∨ n > 5000 then pure []
  else
    let seqSize := if vanilla then 68 else 64
    if o + n * seqSize > d.length then pure []
    else
      pure ((List.range n).map fun i =>
        let base := o + seqSize * i
        let animId := leU16 d base
        let variation := leU16 d (base + 2)
        if vanilla then
          let startTs := leU32 d (base + 4)
          let endTs := leU32 d (base + 8)
          ⟨animId, variation, (endTs : Int) - (startTs : Int),
            leU32 d (base + 12), leU32 d (base + 16)⟩
        else
          ⟨animId, variation, (leU32 d (base + 4) : Int),
            leU32 d (base + 8), leU32 d (base + 12)⟩)

/-! ## Keyframe track decoding (M2Parser._parse_track_wotlk / _parse_track_vanilla)

The decoded track carries per-sequence timestamp and key lists.  Key payloads
are kept at the representation the dtype dispatch produces: vec3 keys as f32
bit-pattern triples, quaternion keys as the four raw signed components (the
WotLK path feeds those i16 quadruples to `decompressQuatKey`, verified
separately; the vanilla `c4quat` path stores plain f32 quadruple bit
patterns).  The `key_dtype` string dispatch of the source becomes the
`decodeKeys` argument supplied at each call site. -/

structure ParsedTrack (α : Type) where
  interp : Int := 0
  globalSeq : Int := -1
  timestamps : List (List Nat) := []
  keys : List (List α) := []

/-- Raw vec3 key: three f32 bit patterns. -/
def Vec3Bits : Type := Fin 3 → Nat

/-- Raw quaternion key: four signed components (i16 for the WotLK compressed
layout, f32 bit patterns reinterpreted as `Int` for the vanilla layout). -/
def QuatBits : Type := Fin 4 → Int

/-- `M2Parser._parse_track_wotlk`: 20-byte M2TrackDisk header; each of the
`n_ts`/`n_keys` entries is a nested `(count, offset)` sub-array header, an
invalid sub-array yielding an empty per-sequence slot. -/
def parseTrackWotlk (d : List Nat) (base : Nat) (keySize : Nat)
    (decodeKeys : Nat → Nat → List α) : ParsedTrack α :=
  if base + 20 > d.length then {} else
  let interp := leI16 d base
  let gseq := leI16 d (base + 2)
  let nTs := leU32 d (base + 4)
  let oTs := leU32 d (base + 8)
  let nKeys := leU32 d (base + 12)
  let oKeys := leU32 d (base + 16)
  if nTs > 5000 ∨ nKeys > 5000 then { interp := interp, globalSeq := gseq } else
  { interp := interp
    globalSeq := gseq
    timestamps := (List.range nTs).map fun s =>
      let hdr := oTs + s * 8
      if hdr + 8 > d.length then [] else
      let c := leU32 d hdr
      let o := leU32 d (hdr + 4)
      if c > 50000 ∨ o + c * 4 > d.length then []
      else (List.range c).map fun i => leU32 d (o + 4 * i)
    keys := (List.range nKeys).map fun s =>
      let hdr := oKeys + s * 8
      if hdr + 8 > d.length then [] else
      let c := leU32 d hdr
      let o := leU32 d (hdr + 4)
      if c > 50000 ∨ o + c * keySize > d.length then []
      else decodeKeys o c }

/-- `M2Parser._parse_track_vanilla`: 28-byte header with flat timestamp/key
arrays sliced by an M2Range table; without a usable range table the whole
flat array becomes the single implicit sequence slot. -/
def parseTrackVanilla (d : List Nat) (base : Nat) (keySize : Nat)
    (decodeKeys : Nat → Nat → List α) : ParsedTrack α :=
  if base + 28 > d.length then {} else
  let interp := leI16 d base
  let gseq := leI16 d (base + 2)
  let nRanges := leU32 d (base + 4)
  let oRanges := leU32 d (base + 8)
  let nTs := leU32 d (base + 12)
  let oTs := leU32 d (base + 16)
  let nKeys := leU32 d (base + 20)
  let oKeys := leU32 d (base + 24)
  if nTs > 500000 ∨ nKeys > 500000 then { interp := interp, globalSeq := gseq } else
  let allTs : List Nat :=
    if 0 < nTs ∧ oTs + nTs * 4 ≤ d.length then
      (List.range nTs).map fun i => leU32 d (oTs + 4 * i)
    else []
  let allKeys : List α :=
    if 0 < nKeys ∧ oKeys + nKeys * keySize ≤ d.length then decodeKeys oKeys nKeys
    else []
  if 0 < nRanges ∧ nRanges < 5000 ∧ oRanges + nRanges * 8 ≤ d.length then
    let slots := (List.range nRanges).map fun r =>
      let rs := leU32 d (oRanges + 8 * r)
      let re := leU32 d (oRanges + 8 * r + 4)
      if rs < re ∧ re ≤ allTs.length then
        ((allTs.drop rs).take (re - rs),
          if re ≤ allKeys.length then (allKeys.drop rs).take (re - rs) else [])
      else ([], [])
    { interp := interp, globalSeq := gseq,
      timestamps := slots.map (·.1), keys := slots.map (·.2) }
  else
    { interp := interp, globalSeq := gseq,
      timestamps := if allTs.isEmpty then [] else [allTs],
      keys := if allTs.isEmpty then [] else [allKeys] }

/-- Flat vec3 key decoder (12-byte stride, f32 bit patterns). -/
def decodeVec3Keys (d : List Nat) (o c : Nat) : List Vec3Bits :=
  (List.range c).map fun i => fun k => leU32 d (o + 12 * i + 4 * (k : Nat))

/-- WotLK compressed-quaternion key decoder: the four raw i16 components per
key (8-byte stride); the source immediately maps `decompressQuatKey` over
these quadruples. -/
def decodeQuatRawKeys (d : List Nat) (o c : Nat) : List QuatBits :=
  (List.range c).map fun i => fun k => leI16 d (o + 8 * i + 2 * (k : Nat))

/-- Vanilla `c4quat` key decoder: four plain f32 bit patterns per key
(16-byte stride). -/
def decodeQuatF32Keys (d : List Nat) (o c : Nat) : List QuatBits :=
  (List.range c).map fun i => fun k => (leU32 d (o + 16 * i + 4 * (k : Nat)) : Int)

/-- One decoded bone-table record (M2Bone at parse time). -/
structure M2BoneRec where
  keyBoneId : Int
  flags : Nat
  parent : Int
  translation : ParsedTrack Vec3Bits
  rotation : ParsedTrack QuatBits
  scale : ParsedTrack Vec3Bits
  pivotBits : Fin 3 → Nat

/-- `M2Parser._parse_bones`: version-gated 108-byte (vanilla) or 88-byte
(WotLK) records; a record running past the buffer truncates the table
(`break`), modelled by the `takeWhile` over record indices. -/
def parseBones (d : List Nat) (vanilla : Bool) : Option (List M2BoneRec) := do
  let n ← readU32q d (bonesHdr vanilla).1
  let o ← readU32q d (bonesHdr vanilla).2
  if n = 0 ∨ n > 5000 then pure []
  else
    let boneSize := if vanilla then 108 else 88
    pure (((List.range n).takeWhile fun i =>
        decide (o + i * boneSize + boneSize ≤ d.length)).map fun i =>
      let base := o + i * boneSize
      if vanilla then
        { keyBoneId := leI32 d base
          flags := leU32 d (base + 4)
          parent := leI16 d (base + 8)
          translation := parseTrackVanilla d (base + 12) 12 (decodeVec3Keys d)
          rotation := parseTrackVanilla d (base + 40) 16 (decodeQuatF32Keys d)
          scale := parseTrackVanilla d (base + 68) 12 (decodeVec3Keys d)
          pivotBits := fun k => leU32 d (base + 96 + 4 * (k : Nat)) }
      else
        { keyBoneId := leI32 d base
          flags := leU32 d (base + 4)
          parent := leI16 d (base + 8)
          translation := parseTrackWotlk d (base + 16) 12 (decodeVec3Keys d)
          rotation := parseTrackWotlk d (base + 36) 8 (decodeQuatRawKeys d)
          scale := parseTrackWotlk d (base + 56) 12 (decodeVec3Keys d)
          pivotBits := fun k => leU32 d (base + 76 + 4 * (k : Nat)) })

/-- Everything `M2Parser.__init__` decodes from the file bytes (the skin data
arrives later through `parse_skin_data`). -/
structure M2Model where
  version : Nat
  vanilla : Bool
  globalSequences : List Nat
  vertices : List M2VertexRec
  textures : List M2TexE
  textureLookup : List Nat
  boneLookup : List Nat
  animations : List M2AnimE
  bones : List M2BoneRec

/-- `M2Parser.__init__` / `_parse`: read the version discriminant at offset 4
(raising past the end), then run every field decoder in source order; any
`struct.error` in a field's header reads aborts the whole construction. -/
def m2Parse (d : List Nat) : Option M2Model := do
  let version ← readU32q d 4
  let vanilla := version ≤ 256
  let gs ← parseGlobalSequences d
  let verts ← parseVertices d vanilla
  let texs ← parseTextures d vanilla
  let texLookup ← parseTextureLookup d vanilla
  let boneLookup ← parseBoneLookup d vanilla
  let anims ← parseAnimations d vanilla
  let bones ← parseBones d vanilla
  pure ⟨version, vanilla, gs, verts, texs, texLookup, boneLookup, anims, bones⟩

/-- Failure modes of a whole-file M2 load. -/
inductive M2LoadErr where
  | formatErr
  | structErr
deriving DecidableEq

/-- The byte constant `MD20`. -/
def md20Magic : List Nat := [77, 68, 50, 48]

/-- The M2 decode entry point (`M2ViewerWindow.run`): refuse any buffer whose
first four bytes are not `MD20` (or that is shorter than 8 bytes) before
constructing the parser, so no partial result exists; a `struct.error` inside
the construction surfaces as `structErr`. -/
def loadM2 (d : List Nat) : Except M2LoadErr M2Model :=
  if d.length < 8 ∨ d.take 4 ≠ md20Magic then .error .formatErr
  else
    match m2Parse d with
    | some m => .ok m
    | none => .error .structErr

/-! ## Skin parsing (M2Parser.parse_skin_data) -/

/-- One decoded submesh range (M2Submesh). -/
structure M2SubmeshE where
  vertexStart : Nat
  vertexCount : Nat
  indexStart : Nat
  indexCount : Nat
deriving DecidableEq

/-- One decoded render batch (M2Batch). -/
structure M2BatchE where
  submeshIndex : Nat
  textureComboIndex : Nat
deriving DecidableEq

/-- The parser fields `parse_skin_data` fills (all start empty). -/
structure SkinState where
  vertexLookup : List Nat := []
  triangles : List Nat := []
  resolvedIndices : List Nat := []
  submeshes : List M2SubmeshE := []
  batches : List M2BatchE := []
deriving DecidableEq

/-- The byte constant `SKIN`. -/
def skinMagic : List Nat := [83, 75, 73, 78]

/-- The two-level indirection resolution loop: for each raw triangle index,
look it up in `vertexLookup`, substituting 0 when the raw index is out of
range for the lookup table or the resolved global index is at or above
`n_verts` — which is the model's vertex count when positive and the source's
65536 fallback when no vertices were decoded. -/
def resolveIndices (lookup : List Nat) (tris : List Nat) (nPos : Nat) :
    List Nat :=
  let nVerts := if 0 < nPos then nPos else 65536
  tris.map fun ti =>
    if ti < lookup.length then
      if lookup.getD ti 0 < nVerts then lookup.getD ti 0 else 0
    else 0

/-- The u16-array field decode of `parse_skin_data` (vertex lookup and
triangles): each is read from its own extent check alone — an overflowing
extent yields the empty array without touching any other field. -/
def skinU16Field (s : List Nat) (o n : Nat) : List Nat :=
  if o + n * 2 ≤ s.length then (List.range n).map fun i => leU16 s (o + 2 * i)
  else []

/-- The submesh-array field decode of `parse_skin_data`: version-gated 32- or
48-byte records, guarded by its own count ceiling and extent check. -/
def skinSubmeshField (s : List Nat) (vanilla : Bool) (o n : Nat) :
    List M2SubmeshE :=
  let subSize := if vanilla then 32 else 48
  if 0 < n ∧ n < 10000 ∧ o + n * subSize ≤ s.length then
    (List.range n).map fun i =>
      let base := o + i * subSize
      ⟨leU16 s (base + 4), leU16 s (base + 6),
        leU16 s (base + 8), leU16 s (base + 10)⟩
  else []

/-- The batch-array field decode of `parse_skin_data`: 24-byte records,
guarded by its own count ceiling and extent check. -/
def skinBatchField (s : List Nat) (o n : Nat) : List M2BatchE :=
  if 0 < n ∧ n < 10000 ∧ o + n * 24 ≤ s.length then
    (List.range n).map fun i =>
      let base := o + i * 24
      ⟨leU16 s (base + 4), leU16 s (base + 16)⟩
  else []

/-- `M2Parser.parse_skin_data`, a function of the parser's version flag, its
decoded vertex count, and the skin-file bytes.  Buffers under 48 bytes leave
every field empty; an out-of-ceiling (or zero) vertex-lookup or triangle
count returns early with every field still empty; each remaining array field
is then decoded by its own independent field decoder; the indirection is
resolved only when both the triangle and lookup arrays came out nonempty. -/
def parseSkinData (vanilla : Bool) (nPos : Nat) (s : List Nat) :
    Option SkinState :=
  if s.length < 48 then some {} else
  let off := if s.take 4 = skinMagic then 4 else 0
  do
    let nIdx ← readU32q s (off + 0)
    let oIdx ← readU32q s (off + 4)
    let nTri ← readU32q s (off + 8)
    let oTri ← readU32q s (off + 12)
    let nSub ← readU32q s (off + 24)
    let oSub ← readU32q s (off + 28)
    let nBat ← readU32q s (off + 32)
    let oBat ← readU32q s (off + 36)
    if nIdx = 0 ∨ nIdx > 500000 then pure {} else
    if nTri = 0 ∨ nTri > 500000 then pure {} else
    let lookup := skinU16Field s oIdx nIdx
    let tris := skinU16Field s oTri nTri
    let resolved : List Nat :=
      if 0 < tris.length ∧ 0 < lookup.length then resolveIndices lookup tris nPos
      else []
    pure ⟨lookup, tris, resolved, skinSubmeshField s vanilla oSub nSub,
      skinBatchField s oBat nBat⟩

/-! ## WMO group parsing (WMOParser.parse_group)

Chunk tags are compared after canonicalisation: a tag whose first byte is not
`M` (77) is byte-reversed (`chunk_id if chunk_id[:1] == b"M" else
chunk_id[::-1]`).  The pre-scan finds an optional wrapping `MOGP` chunk; the
main scan then walks sub-chunks inside it (or the whole file), dispatching the
geometry chunks.  `struct.unpack_from`/`np.frombuffer` reads that run past
the byte buffer are the `none` (exception) outcomes. -/

def tagMOVT : List Nat := [77, 79, 86, 84]
def tagMOVI : List Nat := [77, 79, 86, 73]
def tagMONR : List Nat := [77, 79, 78, 82]
def tagMOTV : List Nat := [77, 79, 84, 86]
def tagMOBA : List Nat := [77, 79, 66, 65]
def tagMOGP : List Nat := [77, 79, 71, 80]

/-- The 4 tag bytes at position `p` (`data[pos:pos+4]`; every consumer sits
behind a guard that keeps all four bytes inside the buffer). -/
def readTag (d : List Nat) (p : Nat) : List Nat :=
  [byteAt d p, byteAt d (p + 1), byteAt d (p + 2), byteAt d (p + 3)]

/-- Canonicalise a chunk tag: keep it if it starts with `M`, else reverse. -/
def canonTag (t : List Nat) : List Nat :=
  if t.headD 0 = 77 then t else t.reverse

/-- One decoded WMO render batch. -/
structure WMOBatchE where
  startIndex : Nat
  indexCount : Nat
  materialId : Nat

/-- Decoded WMO group geometry; f32 fields as bit patterns. -/
structure WMOGroupE where
  positions : List (Fin 3 → Nat) := []
  normals : List (Fin 3 → Nat) := []
  uvs : List (Fin 2 → Nat) := []
  indices : List Nat := []
  batches : List WMOBatchE := []

/-- `MOVT`/`MONR` payload: `chunk_size // 12` triples of f32, each 12-byte
record read raising when it runs past the buffer. -/
def parseVec3Chunk (d : List Nat) (cs n : Nat) :
    Option (List (Fin 3 → Nat)) :=
  if n = 0 ∨ cs + 12 * n ≤ d.length then
    some ((List.range n).map fun i => fun k => leU32 d (cs + 12 * i + 4 * (k : Nat)))
  else none

/-- `MOTV` payload: `chunk_size // 8` UV pairs. -/
def parseUVChunk (d : List Nat) (cs n : Nat) : Option (List (Fin 2 → Nat)) :=
  if n = 0 ∨ cs + 8 * n ≤ d.length then
    some ((List.range n).map fun i => fun k => leU32 d (cs + 8 * i + 4 * (k : Nat)))
  else none

/-- `MOVI` payload: `chunk_size // 2` u16 triangle indices via np.frombuffer,
which raises when the buffer is too small. -/
def parseIdxChunk (d : List Nat) (cs n : Nat) : Option (List Nat) :=
  if n = 0 ∨ cs + 2 * n ≤ d.length then
    some ((List.range n).map fun i => leU16 d (cs + 2 * i))
  else none

/-- `MOBA` payload: `chunk_size // 24` batch records, start index at +12,
index count at +16, material id in the single byte at +23. -/
def parseBatchChunk (d : List Nat) (cs n : Nat) : Option (List WMOBatchE) :=
  if n = 0 ∨ cs + 24 * n ≤ d.length then
    some ((List.range n).map fun i =>
      let base := cs + 24 * i
      ⟨leU32 d (base + 12), leU16 d (base + 16), byteAt d (base + 23)⟩)
  else none

/-- Dispatch one scanned sub-chunk on its canonical tag: geometry chunks
replace their field (batches accumulate), unknown tags are skipped. -/
def dispatchChunk (g : WMOGroupE) (d : List Nat) (cid : List Nat)
    (cs size : Nat) : Option WMOGroupE :=
  if cid = tagMOVT then
    (parseVec3Chunk d cs (size / 12)).map fun ps => { g with positions := ps }
  else if cid = tagMOVI then
    (parseIdxChunk d cs (size / 2)).map fun xs => { g with indices := xs }
  else if cid = tagMONR then
    (parseVec3Chunk d cs (size / 12)).map fun ns => { g with normals := ns }
  else if cid = tagMOTV then
    (parseUVChunk d cs (size / 8)).map fun us => { g with uvs := us }
  else if cid = tagMOBA then
    (parseBatchChunk d cs (size / 24)).map fun bs =>
      { g with batches := g.batches ++ bs }
  else some g

/-- The pre-scan for the wrapping `MOGP` chunk: walk top-level chunks while
8 header bytes remain, returning the position of the first chunk whose
canonical tag is `MOGP`.  The fuel only bounds the recursion; every chunk
step advances by at least 8 bytes, so `d.length + 1` never runs out inside
the guarded region. -/
def prescanFind (d : List Nat) : Nat → Nat → Option Nat
  | _, 0 => none
  | pos, fuel + 1 =>
    if pos + 8 ≤ d.length then
      if canonTag (readTag d pos) = tagMOGP then some pos
      else prescanFind d (pos + 8 + leU32 d (pos + 4)) fuel
    else none

/-- The main sub-chunk scan from `pos` up to `mend`: read the size (raising
past the end of the data), stop when the chunk overruns `mend`, otherwise
dispatch on the canonical tag and continue at the chunk's end. -/
def scanGroup (d : List Nat) (mend : Nat) : Nat → Nat → WMOGroupE →
    Option WMOGroupE
  | _, 0, g => some g
  | pos, fuel + 1, g =>
    if pos + 8 ≤ mend then
      match readU32q d (pos + 4) with
      | none => none
      | some size =>
        if mend < pos + 8 + size then some g
        else
          match dispatchChunk g d (canonTag (readTag d pos)) (pos + 8) size with
          | none => none
          | some g1 => scanGroup d mend (pos + 8 + size) fuel g1
    else some g

/-- `WMOParser.parse_group`: pre-scan for `MOGP`; when found, scan sub-chunks
from 68 bytes past its header up to its declared end, else scan the whole
file. -/
def parseGroup (d : List Nat) : Option WMOGroupE :=
  match prescanFind d 0 (d.length + 1) with
  | some qm =>
    let mend := qm + 8 + leU32 d (qm + 4)
    scanGroup d mend (qm + 76) (mend + 8) {}
  | none => scanGroup d d.length 0 (d.length + 8) {}

/-! ### Machinery for the reversed-tag equivalence (claim C8) -/

/-- Overwrite the four tag bytes at position `p`. -/
def setTag (d : List Nat) (p : Nat) (t : List Nat) : List Nat :=
  d.take p ++ t ++ d.drop (p + 4)

/-- The scan's step function: a chunk at `q` ends at `q + 8 + size(q)`. -/
def stepPos (d : List Nat) (q : Nat) : Nat := q + 8 + leU32 d (q + 4)

/-- `p` lies on the chunk-boundary chain starting at `q` (decidable, fuelled:
each step advances by at least 8 bytes). -/
def inChain (d : List Nat) (p : Nat) : Nat → Nat → Bool
  | q, 0 => q = p
  | q, fuel + 1 => q = p || (decide (q < p) && inChain d p (stepPos d q) fuel)

/-- Position `p` is a chunk boundary of the scan that `parse_group` actually
performs on `d`: on the sub-chunk chain inside the `MOGP` wrapper when the
pre-scan finds one, else on the top-level chain from 0. -/
def reachesTag (d : List Nat) (p : Nat) : Bool :=
  match prescanFind d 0 (d.length + 1) with
  | some qm => inChain d p (qm + 76) (d.length + 1)
  | none => inChain d p 0 (d.length + 1)

/-- Positions reachable by iterating the chunk step function, as an inductive
predicate (the `Prop` counterpart of `inChain`). -/
inductive ChainP (d : List Nat) (p : Nat) : Nat → Prop where
  | refl : ChainP d p p
  | step (q : Nat) (hq : q < p) (h : ChainP d p (stepPos d q)) : ChainP d p q

/-- Agreement of two buffers outside the 4 tag bytes at `p`. -/
def AgreeOutside (d2 d : List Nat) (p : Nat) : Prop :=
  d2.length = d.length ∧ ∀ i, i < p ∨ p + 4 ≤ i → byteAt d2 i = byteAt d i


/-! ## Concrete inputs used by counterexamples and witnesses -/

/-- Build a `Vec3` from three rationals. -/
def v3q (a b c : ℚ) : Vec3 := fun i =>
  if (i : Nat) = 0 then a else if (i : Nat) = 1 then b else c

def defaultSkinVert : SkinVert := ⟨zeroV3, fun _ => 0, fun _ => 0⟩

/-- A vertex at (1, 2, 3) all of whose weights are zero: no pair passes the
weight epsilon, so no bone contributes. -/
def c1Vert : SkinVert := ⟨v3q 1 2 3, fun _ => 0, fun _ => 0⟩

def defaultTrackV : TrackV := ⟨0, -1, [], []⟩

def defaultTrackQ : TrackQ := ⟨0, -1, [], []⟩

def defaultBoneE : BoneE :=
  ⟨-1, 0, -1, zeroV3, defaultTrackV, defaultTrackQ, defaultTrackV⟩

/-- Vector track driven by global sequence 0. -/
def gsTrackV : TrackV := ⟨0, 0, [], []⟩

/-- Quaternion track driven by global sequence 0. -/
def gsTrackQ : TrackQ := ⟨0, 0, [], []⟩

/-- Bone whose three tracks all follow global sequence 0. -/
def gsBone : BoneE := ⟨-1, 0, -1, zeroV3, gsTrackV, gsTrackQ, gsTrackV⟩

/-- Two clips: durations 300 ms and 1000 ms. -/
def c2Anims : List M2AnimE := [⟨0, 0, 300, 0, 0⟩, ⟨1, 0, 1000, 0, 0⟩]

/-- 48-byte skin buffer: one vertex-lookup entry (value 7) at offset 40, one
triangle index (value 0) at offset 44; decoded against a model with zero
vertices. -/
def c3Buf : List Nat :=
  [1, 0, 0, 0, 40, 0, 0, 0, 1, 0, 0, 0, 44, 0, 0, 0,
   0, 0, 0, 0, 0, 0, 0, 0, 0, 0, 0, 0, 0, 0, 0, 0,
   0, 0, 0, 0, 0, 0, 0, 0, 7, 0, 0, 0, 0, 0, 0, 0]

/-- 48-byte skin buffer: two lookup entries [1, 9] at offset 40, two triangle
indices [0, 1] at offset 44; decoded against a model with two vertices. -/
def c3wBuf : List Nat :=
  [2, 0, 0, 0, 40, 0, 0, 0, 2, 0, 0, 0, 44, 0, 0, 0,
   0, 0, 0, 0, 0, 0, 0, 0, 0, 0, 0, 0, 0, 0, 0, 0,
   0, 0, 0, 0, 0, 0, 0, 0, 1, 0, 9, 0, 0, 0, 1, 0]

/-- 48-byte skin buffer whose declared vertex-lookup count is 500001 (over
the 500000 ceiling) while its triangle field (count 3 at offset 40) is
entirely valid. -/
def c5Buf : List Nat :=
  [33, 161, 7, 0, 0, 0, 0, 0, 3, 0, 0, 0, 40, 0, 0, 0,
   0, 0, 0, 0, 0, 0, 0, 0, 0, 0, 0, 0, 0, 0, 0, 0,
   0, 0, 0, 0, 0, 0, 0, 0, 1, 0, 2, 0, 3, 0, 0, 0]

/-- 48-byte skin buffer declaring one vertex-lookup entry at offset 100
(past the buffer) and one valid triangle index (value 5) at offset 44. -/
def c5wBufA : List Nat :=
  [1, 0, 0, 0, 100, 0, 0, 0, 1, 0, 0, 0, 44, 0, 0, 0,
   0, 0, 0, 0, 0, 0, 0, 0, 0, 0, 0, 0, 0, 0, 0, 0,
   0, 0, 0, 0, 0, 0, 0, 0, 0, 0, 0, 0, 5, 0, 0, 0]

/-- 80-byte M2 buffer (WotLK header offsets) whose vertex count at offset 60
is 500001, over the 500000 ceiling. -/
def c5wBufB : List Nat :=
  List.replicate 60 0 ++ [33, 161, 7, 0] ++ List.replicate 16 0

/-- 160-byte M2 buffer, version 257 (WotLK offsets), in which every header
array field declares a count above its sanity ceiling: global sequences
20001, animations 5001, bones 5001, vertices 500001, textures 1001,
bone lookup 10001, texture lookup 10001 — all offsets 0. -/
def c5MultiBuf : List Nat :=
  [77, 68, 50, 48] ++ [1, 1, 0, 0] ++ List.replicate 12 0 ++
  [33, 78, 0, 0] ++ List.replicate 4 0 ++ [137, 19, 0, 0] ++
  List.replicate 12 0 ++ [137, 19, 0, 0] ++ List.replicate 12 0 ++
  [33, 161, 7, 0] ++ List.replicate 16 0 ++ [233, 3, 0, 0] ++
  List.replicate 36 0 ++ [17, 39, 0, 0] ++ List.replicate 4 0 ++
  [17, 39, 0, 0] ++ List.replicate 28 0

/-- 8-byte buffer: `MD20` magic plus version 257 (WotLK layout), far shorter
than the header region. -/
def c9Buf : List Nat := [77, 68, 50, 48, 1, 1, 0, 0]

/-- WMO group buffer holding a single chunk with the byte-reversed tag
`TVOM` (for `MOVT`) and a 12-byte payload (one vertex position). -/
def c8Buf : List Nat :=
  [84, 86, 79, 77, 12, 0, 0, 0, 1, 0, 0, 0, 2, 0, 0, 0, 3, 0, 0, 0]

/-- Linear vec3 track with one sequence slot: timestamps [0, 10],
keys [(1,1,1), (2,2,2)], no global sequence. -/
def c7TrackV : TrackV := ⟨1, -1, [[0, 10]], [[v3q 1 1 1, v3q 2 2 2]]⟩

/-- Linear quaternion track with one sequence slot: timestamps [0, 10],
two constant-component keys, no global sequence. -/
noncomputable def c7TrackQ : TrackQ :=
  ⟨1, -1, [[0, 10]], [[fun _ => 1, fun _ => 2]]⟩

/-! ## Shared read lemmas -/

theorem readU32q_pos (d : List Nat) (i : Nat) (h : i + 4 ≤ d.length) :
    readU32q d i = some (leU32 d i) := by
  unfold readU32q
  exact if_pos h

theorem readU32q_neg (d : List Nat) (i : Nat) (h : d.length < i + 4) :
    readU32q d i = none := by
  unfold readU32q
  exact if_neg (by omega)

theorem someBind {α β : Type} (a : α) (f : α → Option β) :
    ((some a : Option α) >>= f) = f a := rfl

theorem noneBind {α β : Type} (f : α → Option β) :
    ((none : Option α) >>= f) = none := rfl

/-! ## Claim C10 -/

/-- Claim C10: whenever the bone world-matrix buffer is empty or the model's
bone-lookup table is empty, `skin_vertices` returns an exact copy of the input
rest-pose positions with no weighting or matrix transform applied. -/
theorem skin_vertices_copies_rest_pose_when_unprepared
    (mats : List Mat4) (lookup : List Nat) (verts : List SkinVert)
    (h : mats = [] ∨ lookup = []) :
    skinVertices mats lookup verts = verts.map (·.pos) := by
  unfold skinVertices
  rcases h with h | h <;> subst h <;> simp

theorem skin_vertices_copies_rest_pose_when_unprepared_witness :
    skinVertices [] [0] [c1Vert] = [c1Vert.pos] :=
  skin_vertices_copies_rest_pose_when_unprepared [] [0] [c1Vert] (Or.inl rfl)

/-! ## Claim C1 -/

theorem skinContrib_eq_zero (mats : List Mat4) (lookup : List Nat) (p4 : Vec4)
    (wRaw bIdx : Nat)
    (h : (wRaw : ℚ) / 255 ≤ 1 / 1000 ∨
      ¬(bIdx < lookup.length ∧ lookup.getD bIdx 0 < mats.length)) :
    skinContrib mats lookup p4 wRaw bIdx = zeroV4 := by
  unfold skinContrib
  rcases h with h | h
  · rw [if_neg (not_lt.mpr h)]
  · by_cases hw : ((wRaw : ℚ) / 255 > 1 / 1000)
    · rw [if_pos hw, if_neg h]
    · rw [if_neg hw]

/-- Claim C1 counterexample: with a nonempty bone-matrix buffer and lookup
table, a vertex at (1,2,3) whose four weights are all zero (so no pair yields
a valid contribution) is *not* returned unmodified — `skin_vertices` produces
the origin, not the rest-pose position. -/
theorem skin_vertices_dead_vertex_counterexample :
    skinVertices [idMat4] [0] [c1Vert] ≠ [c1Vert.pos] ∧
    skinVertices [idMat4] [0] [c1Vert] = [v3q 0 0 0] := by
  have hzero : skinVertices [idMat4] [0] [c1Vert] = [v3q 0 0 0] := by
    have hc : ∀ j : Fin 4, skinContrib [idMat4] [0] (homog c1Vert.pos)
        (c1Vert.weights j) (c1Vert.bones j) = zeroV4 := by
      intro j
      refine skinContrib_eq_zero _ _ _ _ _ (Or.inl ?_)
      show ((0 : Nat) : ℚ) / 255 ≤ 1 / 1000
      norm_num
    unfold skinVertices
    rw [if_neg (by simp)]
    simp only [List.map, skinVertex, hc]
    congr 1
    funext i
    norm_num [addV4, zeroV4, v3q]
  refine ⟨?_, hzero⟩
  rw [hzero]
  intro h
  have h0 := congrFun (List.cons.injEq _ _ _ _ ▸ h).1 0
  norm_num [v3q, c1Vert] at h0

/-- Claim C1 (amended): with a nonempty bone-matrix buffer and bone-lookup
table, a vertex none of whose four (weight, boneIndex) pairs yields a valid
contribution (every normalised weight at or below the epsilon, or the
bone-lookup/bone-array validity checks failing) is skinned to the origin
(0,0,0) — the zero accumulation de-homogenised with the clamped denominator 1
— not to its rest-pose position.  The rest-pose positions are returned only
through the whole-array early exit of claim C10. -/
theorem skin_vertices_dead_vertex_returns_origin
    (mats : List Mat4) (lookup : List Nat) (verts : List SkinVert) (k : Nat)
    (hm : mats ≠ []) (hl : lookup ≠ []) (hk : k < verts.length)
    (hnc : ∀ j : Fin 4,
      ((verts.getD k defaultSkinVert).weights j : ℚ) / 255 ≤ 1 / 1000 ∨
      ¬((verts.getD k defaultSkinVert).bones j < lookup.length ∧
        lookup.getD ((verts.getD k defaultSkinVert).bones j) 0 < mats.length)) :
    (skinVertices mats lookup verts).getD k zeroV3 = zeroV3 := by
  have hcond : ¬(mats.length = 0 ∨ lookup.length = 0) := by
    simp [List.length_eq_zero, hm, hl]
  unfold skinVertices
  rw [if_neg hcond]
  have hk2 : k < (verts.map (skinVertex mats lookup)).length := by
    simpa using hk
  rw [List.getD_eq_getElem _ _ hk2, List.getElem_map]
  have hv : verts[k] = verts.getD k defaultSkinVert :=
    (List.getD_eq_getElem _ _ hk).symm
  rw [hv]
  have hc : ∀ j : Fin 4, skinContrib mats lookup
      (homog (verts.getD k defaultSkinVert).pos)
      ((verts.getD k defaultSkinVert).weights j)
      ((verts.getD k defaultSkinVert).bones j) = zeroV4 := fun j =>
    skinContrib_eq_zero _ _ _ _ _ (hnc j)
  simp only [skinVertex, hc]
  funext i
  norm_num [addV4, zeroV4, zeroV3]

theorem skin_vertices_dead_vertex_returns_origin_witness :
    (skinVertices [idMat4] [0] [c1Vert]).getD 0 zeroV3 = zeroV3 :=
  skin_vertices_dead_vertex_returns_origin [idMat4] [0] [c1Vert] 0
    (by decide) (by decide) (by decide)
    (by
      intro j
      refine Or.inl ?_
      show ((0 : Nat) : ℚ) / 255 ≤ 1 / 1000
      norm_num)

/-! ## Claim C4 -/

theorem decompQuatComponent_eq_spec (v : Int) :
    decompQuatComponent v = spec_quatComponent v := by
  unfold decompQuatComponent spec_quatComponent
  rcases lt_or_le v 0 with h | h
  · rw [if_pos h, if_neg (by omega)]
  · rw [if_neg (by omega), if_pos h]

/-- Claim C4: every compressed-quaternion key is decoded by converting each
i16 component with `v ≥ 0 ? (v − 32767)/32767 : (v + 32768)/32767` and only
afterwards renormalising the 4-vector with the denominator clamped away from
zero: the source's decoder agrees exactly with the spec's
convert-then-normalize formula. -/
theorem compressed_quat_convert_then_normalize (raw : Fin 4 → Int) :
    decompressQuatKey raw = spec_decompressQuatKey raw := by
  unfold decompressQuatKey spec_decompressQuatKey
  have h : (fun i => ((decompQuatComponent (raw i) : ℚ) : ℝ)) =
      fun i => ((spec_quatComponent (raw i) : ℚ) : ℝ) := by
    funext i
    rw [decompQuatComponent_eq_spec]
  rw [h]

/-! ## Claim C6 -/

/-- Claim C6: any input whose first 4 bytes are not the `MD20` magic is
refused with the format-error failure before the parser is constructed, so
no geometry, bones, or animations are decoded from that buffer. -/
theorem bad_magic_aborts_with_format_error (d : List Nat)
    (h : d.take 4 ≠ md20Magic) :
    loadM2 d = .error .formatErr := by
  unfold loadM2
  rw [if_pos (Or.inr h)]

theorem bad_magic_aborts_with_format_error_witness :
    loadM2 [77, 68, 50, 49, 1, 1, 0, 0] = .error .formatErr :=
  bad_magic_aborts_with_format_error [77, 68, 50, 49, 1, 1, 0, 0] (by decide)

/-! ## Claim C2 -/

/-- Claim C2 counterexample: global-sequence time is *not* derived from an
evaluator-wide clock independent of the active clip.  Both runs start a fresh
clock (`set_sequence` resets it to 0) and advance by the same 0.5 s of real
time against the same model (global-sequence table `[1000]`, clips of 300 ms
and 1000 ms), so the claim makes both tracks sample the identical effective
time `500 mod 1000`; but the evaluator wraps its single `time_ms` by the
*active clip's* duration first, so the run playing clip 0 samples 200 while
the run playing clip 1 samples 500. -/
theorem global_sequence_clock_depends_on_active_clip :
    (getTimeAndSeq [1000] 0 0
      (updateTime [defaultBoneE] c2Anims true 1 0 0 (1 / 2))).2 ≠
    (getTimeAndSeq [1000] 0 1
      (updateTime [defaultBoneE] c2Anims true 1 1 0 (1 / 2))).2 := by
  have h0 : updateTime [defaultBoneE] c2Anims true 1 0 0 (1 / 2) = 200 := by
    unfold updateTime qmod c2Anims
    norm_num [List.getD]
  have h1 : updateTime [defaultBoneE] c2Anims true 1 1 0 (1 / 2) = 500 := by
    unfold updateTime qmod c2Anims
    norm_num [List.getD]
  rw [h0, h1]
  unfold getTimeAndSeq qmod
  norm_num

/-- Claim C2 (amended): the effective time of a global-sequence track is
`time_ms mod globalSequenceDuration` where `time_ms` is the active clip's own
clock (reset on sequence switch and wrapped modulo the clip's duration), not
an independent evaluator-wide clock; consequently a bone whose three tracks
all declare valid global-sequence ids evaluates to the identical local
transform under two different active clips whenever the two clip-clock values
are congruent modulo each track's global-sequence duration. -/
theorem global_sequence_pose_congruent_across_clips
    (gs : List Nat) (b : BoneE) (s1 s2 : Nat) (t1 t2 : ℚ)
    (hT : 0 ≤ b.translation.globalSeq ∧
      b.translation.globalSeq.toNat < gs.length)
    (hR : 0 ≤ b.rotation.globalSeq ∧ b.rotation.globalSeq.toNat < gs.length)
    (hS : 0 ≤ b.scale.globalSeq ∧ b.scale.globalSeq.toNat < gs.length)
    (hmT : qmod t1 (gs.getD b.translation.globalSeq.toNat 0 : ℚ) =
      qmod t2 (gs.getD b.translation.globalSeq.toNat 0 : ℚ))
    (hmR : qmod t1 (gs.getD b.rotation.globalSeq.toNat 0 : ℚ) =
      qmod t2 (gs.getD b.rotation.globalSeq.toNat 0 : ℚ))
    (hmS : qmod t1 (gs.getD b.scale.globalSeq.toNat 0 : ℚ) =
      qmod t2 (gs.getD b.scale.globalSeq.toNat 0 : ℚ)) :
    evalBone gs b s1 t1 = evalBone gs b s2 t2 := by
  have hres : ∀ (g : Int), 0 ≤ g → g.toNat < gs.length →
      qmod t1 (gs.getD g.toNat 0 : ℚ) = qmod t2 (gs.getD g.toNat 0 : ℚ) →
      ∀ sa sb : Nat, getTimeAndSeq gs g sa t1 = getTimeAndSeq gs g sb t2 := by
    intro g hg1 hg2 hq sa sb
    unfold getTimeAndSeq
    rw [if_pos ⟨hg1, hg2⟩, if_pos ⟨hg1, hg2⟩]
    dsimp only
    by_cases hd : 0 < gs.getD g.toNat 0
    · rw [if_pos hd, if_pos hd, hq]
    · rw [if_neg hd, if_neg hd]
  have hV : ∀ (tr : TrackV) (dflt : Vec3), 0 ≤ tr.globalSeq →
      tr.globalSeq.toNat < gs.length →
      qmod t1 (gs.getD tr.globalSeq.toNat 0 : ℚ) =
        qmod t2 (gs.getD tr.globalSeq.toNat 0 : ℚ) →
      interpVec3 gs tr s1 t1 dflt = interpVec3 gs tr s2 t2 dflt := by
    intro tr dflt hg1 hg2 hq
    unfold interpVec3
    rw [hres tr.globalSeq hg1 hg2 hq s1 s2]
  have hQ : interpQuat gs b.rotation s1 t1 = interpQuat gs b.rotation s2 t2 := by
    unfold interpQuat
    rw [hres b.rotation.globalSeq hR.1 hR.2 hmR s1 s2]
  unfold evalBone
  rw [hV b.translation zeroV3 hT.1 hT.2 hmT, hQ, hV b.scale onesV3 hS.1 hS.2 hmS]

theorem global_sequence_pose_congruent_across_clips_witness :
    evalBone [5] gsBone 0 2 = evalBone [5] gsBone 1 7 :=
  global_sequence_pose_congruent_across_clips [5] gsBone 0 1 2 7
    (by decide) (by decide) (by decide)
    (by norm_num [qmod, gsBone, gsTrackV, gsTrackQ])
    (by norm_num [qmod, gsBone, gsTrackV, gsTrackQ])
    (by norm_num [qmod, gsBone, gsTrackV, gsTrackQ])

/-! ## Claim C7 -/

theorem chain_head_lt_getLastD (a b : ℚ) (t : List ℚ)
    (h : List.Chain' (· < ·) (a :: b :: t)) :
    a < (a :: b :: t).getLastD 0 := by
  induction t generalizing a b with
  | nil =>
    have hab := (List.chain'_cons.mp h).1
    simpa [List.getLastD] using hab
  | cons c t ih =>
    have hab := (List.chain'_cons.mp h).1
    have hrest := (List.chain'_cons.mp h).2
    have hb := ih b c hrest
    have hstep : (a :: b :: c :: t).getLastD 0 = (b :: c :: t).getLastD 0 := by
      simp [List.getLastD]
    rw [hstep]
    exact lt_trans hab hb

theorem interpVec3_clamps (gs : List Nat) (tr : TrackV) (seqIdx : Nat)
    (t : ℚ) (dflt : Vec3) (si : Nat) (ti : ℚ)
    (hres : getTimeAndSeq gs tr.globalSeq seqIdx t = (si, ti))
    (h1 : si < tr.timestamps.length) (h2 : si < tr.keys.length)
    (hts : tr.timestamps.getD si [] ≠ []) (hks : tr.keys.getD si [] ≠ [])
    (hlen : (tr.keys.getD si []).length = (tr.timestamps.getD si []).length)
    (hsort : List.Chain' (· < ·) (tr.timestamps.getD si [])) :
    (ti ≤ (tr.timestamps.getD si []).headD 0 →
      interpVec3 gs tr seqIdx t dflt = (tr.keys.getD si []).headD dflt) ∧
    ((tr.timestamps.getD si []).getLastD 0 ≤ ti →
      interpVec3 gs tr seqIdx t dflt = (tr.keys.getD si []).getLastD dflt) := by
  have hbody : interpVec3 gs tr seqIdx t dflt =
      (if ti ≤ (tr.timestamps.getD si []).headD 0 then
        (tr.keys.getD si []).headD dflt
      else if (tr.timestamps.getD si []).getLastD 0 ≤ ti then
        (tr.keys.getD si []).getLastD dflt
      else
        let ts := tr.timestamps.getD si []
        let ks := tr.keys.getD si []
        let idx := bracketIdx ts ti
        let t0 := ts.getD idx 0
        let t1 := ts.getD (idx + 1) 0
        let frac := if t1 ≠ t0 then (ti - t0) / (t1 - t0) else 0
        if tr.interp = 0 then ks.getD idx dflt
        else fun i => (1 - frac) * (ks.getD idx dflt) i +
          frac * (ks.getD (idx + 1) dflt) i) := by
    unfold interpVec3
    rw [hres]
    dsimp only
    rw [if_neg (not_or.mpr ⟨not_le.mpr h1, not_le.mpr h2⟩),
      if_neg (by simp only [List.isEmpty_iff, not_or]; exact ⟨hts, hks⟩)]
  constructor
  · intro hh
    rw [hbody, if_pos hh]
  · intro hl
    by_cases hh : ti ≤ (tr.timestamps.getD si []).headD 0
    · rw [hbody, if_pos hh]
      obtain ⟨a, rest, hcons⟩ := List.exists_cons_of_ne_nil hts
      cases rest with
      | nil =>
        obtain ⟨k, hk⟩ := List.length_eq_one.mp (by rw [hlen, hcons]; rfl)
        rw [hk]
        rfl
      | cons b rt =>
        exfalso
        have hlt : a < (tr.timestamps.getD si []).getLastD 0 := by
          rw [hcons]
          exact chain_head_lt_getLastD a b rt (hcons ▸ hsort)
        have hha : ti ≤ a := by rw [hcons] at hh; simpa using hh
        linarith
    · rw [hbody, if_neg hh, if_pos hl]

theorem interpQuat_clamps (gs : List Nat) (tr : TrackQ) (seqIdx : Nat)
    (t : ℚ) (si : Nat) (ti : ℚ)
    (hres : getTimeAndSeq gs tr.globalSeq seqIdx t = (si, ti))
    (h1 : si < tr.timestamps.length) (h2 : si < tr.keys.length)
    (hts : tr.timestamps.getD si [] ≠ []) (hks : tr.keys.getD si [] ≠ [])
    (hlen : (tr.keys.getD si []).length = (tr.timestamps.getD si []).length)
    (hsort : List.Chain' (· < ·) (tr.timestamps.getD si [])) :
    (ti ≤ (tr.timestamps.getD si []).headD 0 →
      interpQuat gs tr seqIdx t = (tr.keys.getD si []).headD quatIdent) ∧
    ((tr.timestamps.getD si []).getLastD 0 ≤ ti →
      interpQuat gs tr seqIdx t = (tr.keys.getD si []).getLastD quatIdent) := by
  have hbody : interpQuat gs tr seqIdx t =
      (if ti ≤ (tr.timestamps.getD si []).headD 0 then
        (tr.keys.getD si []).headD quatIdent
      else if (tr.timestamps.getD si []).getLastD 0 ≤ ti then
        (tr.keys.getD si []).getLastD quatIdent
      else
        let ts := tr.timestamps.getD si []
        let ks := tr.keys.getD si []
        let idx := bracketIdx ts ti
        let t0 := ts.getD idx 0
        let t1 := ts.getD (idx + 1) 0
        let frac := if t1 ≠ t0 then (ti - t0) / (t1 - t0) else 0
        if tr.interp = 0 then ks.getD idx quatIdent
        else slerp (ks.getD idx quatIdent) (ks.getD (idx + 1) quatIdent)
          (frac : ℝ)) := by
    unfold interpQuat
    rw [hres]
    dsimp only
    rw [if_neg (not_or.mpr ⟨not_le.mpr h1, not_le.mpr h2⟩),
      if_neg (by simp only [List.isEmpty_iff, not_or]; exact ⟨hts, hks⟩)]
  constructor
  · intro hh
    rw [hbody, if_pos hh]
  · intro hl
    by_cases hh : ti ≤ (tr.timestamps.getD si []).headD 0
    · rw [hbody, if_pos hh]
      obtain ⟨a, rest, hcons⟩ := List.exists_cons_of_ne_nil hts
      cases rest with
      | nil =>
        obtain ⟨k, hk⟩ := List.length_eq_one.mp (by rw [hlen, hcons]; rfl)
        rw [hk]
        rfl
      | cons b rt =>
        exfalso
        have hlt : a < (tr.timestamps.getD si []).getLastD 0 := by
          rw [hcons]
          exact chain_head_lt_getLastD a b rt (hcons ▸ hsort)
        have hha : ti ≤ a := by rw [hcons] at hh; simpa using hh
        linarith
    · rw [hbody, if_neg hh, if_pos hl]

/-- Claim C7: for both vec3 and quaternion tracks, with a nonempty
strictly-ascending timestamp slot and a same-length key slot at the resolved
sequence index, interpolating at a time at or before the first timestamp
yields the first key, and at or after the last timestamp yields the last
key. -/
theorem interpolation_clamps_to_first_and_last_key
    (gs : List Nat) (tv : TrackV) (tq : TrackQ) (seqIdx : Nat) (t : ℚ)
    (dflt : Vec3) (siv : Nat) (tiv : ℚ) (siq : Nat) (tiq : ℚ)
    (hresv : getTimeAndSeq gs tv.globalSeq seqIdx t = (siv, tiv))
    (hresq : getTimeAndSeq gs tq.globalSeq seqIdx t = (siq, tiq))
    (hv1 : siv < tv.timestamps.length) (hv2 : siv < tv.keys.length)
    (hvts : tv.timestamps.getD siv [] ≠ []) (hvks : tv.keys.getD siv [] ≠ [])
    (hvlen : (tv.keys.getD siv []).length = (tv.timestamps.getD siv []).length)
    (hvsort : List.Chain' (· < ·) (tv.timestamps.getD siv []))
    (hq1 : siq < tq.timestamps.length) (hq2 : siq < tq.keys.length)
    (hqts : tq.timestamps.getD siq [] ≠ []) (hqks : tq.keys.getD siq [] ≠ [])
    (hqlen : (tq.keys.getD siq []).length = (tq.timestamps.getD siq []).length)
    (hqsort : List.Chain' (· < ·) (tq.timestamps.getD siq [])) :
    (tiv ≤ (tv.timestamps.getD siv []).headD 0 →
      interpVec3 gs tv seqIdx t dflt = (tv.keys.getD siv []).headD dflt) ∧
    ((tv.timestamps.getD siv []).getLastD 0 ≤ tiv →
      interpVec3 gs tv seqIdx t dflt = (tv.keys.getD siv []).getLastD dflt) ∧
    (tiq ≤ (tq.timestamps.getD siq []).headD 0 →
      interpQuat gs tq seqIdx t = (tq.keys.getD siq []).headD quatIdent) ∧
    ((tq.timestamps.getD siq []).getLastD 0 ≤ tiq →
      interpQuat gs tq seqIdx t = (tq.keys.getD siq []).getLastD quatIdent) := by
  obtain ⟨hvh, hvl⟩ := interpVec3_clamps gs tv seqIdx t dflt siv tiv hresv
    hv1 hv2 hvts hvks hvlen hvsort
  obtain ⟨hqh, hql⟩ := interpQuat_clamps gs tq seqIdx t siq tiq hresq
    hq1 hq2 hqts hqks hqlen hqsort
  exact ⟨hvh, hvl, hqh, hql⟩

theorem interpolation_clamps_to_first_and_last_key_witness :
    interpVec3 [] c7TrackV 0 20 zeroV3 = v3q 2 2 2 ∧
    interpQuat [] c7TrackQ 0 20 = (fun _ => 2) := by
  have h := interpolation_clamps_to_first_and_last_key [] c7TrackV c7TrackQ
    0 20 zeroV3 0 20 0 20
    (by norm_num [getTimeAndSeq, c7TrackV])
    (by norm_num [getTimeAndSeq, c7TrackQ])
    (by norm_num [c7TrackV]) (by norm_num [c7TrackV])
    (by simp [c7TrackV, List.getD])
    (by simp [c7TrackV, List.getD])
    (by norm_num [c7TrackV, List.getD])
    (by simp [c7TrackV, List.getD, List.chain'_cons])
    (by norm_num [c7TrackQ]) (by norm_num [c7TrackQ])
    (by simp [c7TrackQ, List.getD])
    (by simp [c7TrackQ, List.getD])
    (by norm_num [c7TrackQ, List.getD])
    (by simp [c7TrackQ, List.getD, List.chain'_cons])
  refine ⟨?_, ?_⟩
  · have hv := h.2.1 (by norm_num [c7TrackV, List.getD, List.getLastD])
    simpa [c7TrackV, List.getD, List.getLastD] using hv
  · have hq := h.2.2.2 (by norm_num [c7TrackQ, List.getD, List.getLastD])
    simpa [c7TrackQ, List.getD, List.getLastD] using hq

/-! ## Claim C3 -/

theorem parseSkinData_isSome (vanilla : Bool) (nPos : Nat) (s : List Nat) :
    (parseSkinData vanilla nPos s).isSome = true := by
  unfold parseSkinData
  by_cases h48 : s.length < 48
  · rw [if_pos h48]
    rfl
  · rw [if_neg h48]
    set off := (if s.take 4 = skinMagic then 4 else 0) with hoff
    have hle : off ≤ 4 := by rw [hoff]; split_ifs <;> omega
    simp only [readU32q_pos s (off + 0) (by omega),
      readU32q_pos s (off + 4) (by omega),
      readU32q_pos s (off + 8) (by omega),
      readU32q_pos s (off + 12) (by omega),
      readU32q_pos s (off + 24) (by omega),
      readU32q_pos s (off + 28) (by omega),
      readU32q_pos s (off + 32) (by omega),
      readU32q_pos s (off + 36) (by omega),
      someBind]
    split_ifs <;> rfl

theorem parseSkinData_resolved (vanilla : Bool) (nPos : Nat) (s : List Nat)
    (st : SkinState) (h : parseSkinData vanilla nPos s = some st) :
    st.resolvedIndices =
      if 0 < st.triangles.length ∧ 0 < st.vertexLookup.length then
        resolveIndices st.vertexLookup st.triangles nPos
      else [] := by
  unfold parseSkinData at h
  by_cases h48 : s.length < 48
  · rw [if_pos h48] at h
    obtain rfl := Option.some.inj h
    simp
  · rw [if_neg h48] at h
    set off := (if s.take 4 = skinMagic then 4 else 0) with hoff
    have hle : off ≤ 4 := by rw [hoff]; split_ifs <;> omega
    simp only [readU32q_pos s (off + 0) (by omega),
      readU32q_pos s (off + 4) (by omega),
      readU32q_pos s (off + 8) (by omega),
      readU32q_pos s (off + 12) (by omega),
      readU32q_pos s (off + 24) (by omega),
      readU32q_pos s (off + 28) (by omega),
      readU32q_pos s (off + 32) (by omega),
      readU32q_pos s (off + 36) (by omega),
      someBind] at h
    split_ifs at h <;> obtain rfl := Option.some.inj h <;> simp_all

/-- Claim C3 (amended): skin decoding never raises, and whenever the decoded
triangle and vertex-lookup arrays are both nonempty the resolution step sets
`resolvedIndices[i] = vertexLookup[triangles[i]]`, substituting 0 when
`triangles[i]` is out of range for `vertexLookup` or when the resolved global
index is at or above the bound — the model's vertex count when at least one
vertex was decoded, and the source's 65536 fallback otherwise (the
`resolvedIndices` array stays empty, rather than being filled with 0, when
either decoded array is empty). -/
theorem skin_resolution_substitutes_zero (vanilla : Bool) (nPos : Nat)
    (s : List Nat) :
    (parseSkinData vanilla nPos s).isSome = true ∧
    ∀ st, parseSkinData vanilla nPos s = some st →
      ∀ i, i < st.resolvedIndices.length →
        st.resolvedIndices.getD i 0 =
          if st.triangles.getD i 0 < st.vertexLookup.length ∧
              st.vertexLookup.getD (st.triangles.getD i 0) 0 <
                (if 0 < nPos then nPos else 65536) then
            st.vertexLookup.getD (st.triangles.getD i 0) 0
          else 0 := by
  refine ⟨parseSkinData_isSome vanilla nPos s, ?_⟩
  intro st hst i hi
  have hr := parseSkinData_resolved vanilla nPos s st hst
  by_cases hne : 0 < st.triangles.length ∧ 0 < st.vertexLookup.length
  · rw [if_pos hne] at hr
    have hlen : st.resolvedIndices.length = st.triangles.length := by
      rw [hr]
      simp [resolveIndices]
    have hit : i < st.triangles.length := hlen ▸ hi
    have hmap : st.resolvedIndices.getD i 0 =
        (fun ti =>
          if ti < st.vertexLookup.length then
            if st.vertexLookup.getD ti 0 < (if 0 < nPos then nPos else 65536)
            then st.vertexLookup.getD ti 0 else 0
          else 0) (st.triangles.getD i 0) := by
      rw [hr]
      unfold resolveIndices
      rw [List.getD_eq_getElem _ _ (by simpa using hit), List.getElem_map,
        List.getD_eq_getElem _ _ hit]
    rw [hmap]
    dsimp only
    split_ifs <;> first | rfl | tauto
  · rw [if_neg hne] at hr
    rw [hr] at hi
    simp at hi

/-- Claim C3 counterexample: a skin buffer declaring one lookup entry (7) and
one triangle index (0), decoded against a model with zero decoded vertices.
The resolved global index 7 is out of range for the model's vertex count 0,
so the claim requires `resolvedIndices = [0]`; the source instead checks
against its 65536 fallback and keeps `[7]`. -/
theorem skin_resolution_zero_vertex_counterexample :
    (parseSkinData false 0 c3Buf).map SkinState.resolvedIndices ≠
      some [0] ∧
    (parseSkinData false 0 c3Buf).map SkinState.resolvedIndices =
      some [7] := by
  constructor <;> decide

theorem skin_resolution_substitutes_zero_witness :
    (parseSkinData false 2 c3wBuf).isSome = true ∧
    (([1, 0] : List Nat).getD 1 0 =
      if ([0, 1] : List Nat).getD 1 0 < ([1, 9] : List Nat).length ∧
          ([1, 9] : List Nat).getD (([0, 1] : List Nat).getD 1 0) 0 <
            (if 0 < 2 then 2 else 65536) then
        ([1, 9] : List Nat).getD (([0, 1] : List Nat).getD 1 0) 0
      else 0) := by
  refine ⟨(skin_resolution_substitutes_zero false 2 c3wBuf).1, ?_⟩
  exact (skin_resolution_substitutes_zero false 2 c3wBuf).2
    ⟨[1, 9], [0, 1], [1, 0], [], []⟩ (by decide) 1 (by decide)

/-! ## Claim C5 -/

theorem parseSkinData_lookup_overflow (vanilla : Bool) (nPos : Nat)
    (s : List Nat) (off : Nat) (h48 : 48 ≤ s.length)
    (hoffdef : off = (if s.take 4 = skinMagic then 4 else 0))
    (hn1 : 0 < leU32 s (off + 0)) (hn2 : leU32 s (off + 0) ≤ 500000)
    (ht1 : 0 < leU32 s (off + 8)) (ht2 : leU32 s (off + 8) ≤ 500000)
    (hov : s.length < leU32 s (off + 4) + leU32 s (off + 0) * 2) :
    parseSkinData vanilla nPos s = some
      ⟨[], skinU16Field s (leU32 s (off + 12)) (leU32 s (off + 8)), [],
        skinSubmeshField s vanilla (leU32 s (off + 28)) (leU32 s (off + 24)),
        skinBatchField s (leU32 s (off + 36)) (leU32 s (off + 32))⟩ := by
  unfold parseSkinData
  rw [if_neg (by omega)]
  rw [← hoffdef]
  have hle : off ≤ 4 := by rw [hoffdef]; split_ifs <;> omega
  simp only [readU32q_pos s (off + 0) (by omega),
    readU32q_pos s (off + 4) (by omega),
    readU32q_pos s (off + 8) (by omega),
    readU32q_pos s (off + 12) (by omega),
    readU32q_pos s (off + 24) (by omega),
    readU32q_pos s (off + 28) (by omega),
    readU32q_pos s (off + 32) (by omega),
    readU32q_pos s (off + 36) (by omega),
    someBind]
  rw [if_neg (by omega), if_neg (by omega)]
  have hlk : skinU16Field s (leU32 s (off + 4)) (leU32 s (off + 0)) = [] := by
    unfold skinU16Field
    rw [if_neg (by omega)]
  rw [hlk, if_neg (by simp)]
  rfl

theorem parseGlobalSequences_invalid (d : List Nat) (n o : Nat)
    (hn : readU32q d globalSeqHdr.1 = some n)
    (ho : readU32q d globalSeqHdr.2 = some o)
    (hbad : 10000 < n ∨ d.length < o + n * 4) :
    parseGlobalSequences d = some [] := by
  unfold parseGlobalSequences
  rw [hn, ho]
  simp only [someBind]
  rw [if_pos (by omega)]
  rfl

theorem parseVertices_invalid (d : List Nat) (vanilla : Bool) (n o : Nat)
    (hn : readU32q d (vertsHdr vanilla).1 = some n)
    (ho : readU32q d (vertsHdr vanilla).2 = some o)
    (hbad : 500000 < n ∨ d.length < o + n * 48) :
    parseVertices d vanilla = some [] := by
  unfold parseVertices
  rw [hn, ho]
  simp only [someBind]
  rw [if_pos (by omega)]
  rfl

theorem parseTextures_invalid (d : List Nat) (vanilla : Bool) (n o : Nat)
    (hn : readU32q d (texturesHdr vanilla).1 = some n)
    (ho : readU32q d (texturesHdr vanilla).2 = some o)
    (hbad : 1000 < n ∨ d.length < o + n * 16) :
    parseTextures d vanilla = some [] := by
  unfold parseTextures
  rw [hn, ho]
  simp only [someBind]
  rw [if_pos (by omega)]
  rfl

theorem parseTextureLookup_invalid (d : List Nat) (vanilla : Bool) (n o : Nat)
    (hn : readU32q d (textureLookupHdr vanilla).1 = some n)
    (ho : readU32q d (textureLookupHdr vanilla).2 = some o)
    (hbad : 10000 < n ∨ d.length < o + n * 2) :
    parseTextureLookup d vanilla = some [] := by
  unfold parseTextureLookup
  rw [hn, ho]
  simp only [someBind]
  rw [if_pos (by omega)]
  rfl

theorem parseBoneLookup_invalid (d : List Nat) (vanilla : Bool) (n o : Nat)
    (hn : readU32q d (boneLookupHdr vanilla).1 = some n)
    (ho : readU32q d (boneLookupHdr vanilla).2 = some o)
    (hbad : 10000 < n ∨ d.length < o + n * 2) :
    parseBoneLookup d vanilla = some [] := by
  unfold parseBoneLookup
  rw [hn, ho]
  simp only [someBind]
  rw [if_pos (by omega)]
  rfl

theorem parseAnimations_invalid (d : List Nat) (vanilla : Bool) (n o : Nat)
    (hn : readU32q d animsHdr.1 = some n)
    (ho : readU32q d animsHdr.2 = some o)
    (hbad : 5000 < n ∨ d.length < o + n * (if vanilla then 68 else 64)) :
    parseAnimations d vanilla = some [] := by
  unfold parseAnimations
  rw [hn, ho]
  simp only [someBind]
  by_cases hc : n = 0 ∨ n > 5000
  · rw [if_pos hc]
    rfl
  · rw [if_neg hc]
    cases vanilla
    · simp only [Bool.false_eq_true, if_false] at hbad ⊢
      rw [if_pos (by omega)]
      rfl
    · simp only [if_true] at hbad ⊢
      rw [if_pos (by omega)]
      rfl

theorem m2Parse_fields (d : List Nat) (m : M2Model)
    (h : m2Parse d = some m) :
    readU32q d 4 = some m.version ∧
    parseGlobalSequences d = some m.globalSequences ∧
    parseVertices d m.vanilla = some m.vertices ∧
    parseTextures d m.vanilla = some m.textures ∧
    parseTextureLookup d m.vanilla = some m.textureLookup ∧
    parseBoneLookup d m.vanilla = some m.boneLookup ∧
    parseAnimations d m.vanilla = some m.animations ∧
    parseBones d m.vanilla = some m.bones := by
  unfold m2Parse at h
  cases hv : readU32q d 4 with
  | none =>
    rw [hv] at h
    exact absurd h (by simp)
  | some v =>
    rw [hv] at h
    simp only [someBind] at h
    cases h1 : parseGlobalSequences d with
    | none =>
      rw [h1] at h
      exact absurd h (by simp)
    | some gs =>
      rw [h1] at h
      simp only [someBind] at h
      cases h2 : parseVertices d (decide (v ≤ 256)) with
      | none =>
        rw [h2] at h
        exact absurd h (by simp)
      | some vs =>
        rw [h2] at h
        simp only [someBind] at h
        cases h3 : parseTextures d (decide (v ≤ 256)) with
        | none =>
          rw [h3] at h
          exact absurd h (by simp)
        | some ts =>
          rw [h3] at h
          simp only [someBind] at h
          cases h4 : parseTextureLookup d (decide (v ≤ 256)) with
          | none =>
            rw [h4] at h
            exact absurd h (by simp)
          | some tl =>
            rw [h4] at h
            simp only [someBind] at h
            cases h5 : parseBoneLookup d (decide (v ≤ 256)) with
            | none =>
              rw [h5] at h
              exact absurd h (by simp)
            | some bl =>
              rw [h5] at h
              simp only [someBind] at h
              cases h6 : parseAnimations d (decide (v ≤ 256)) with
              | none =>
                rw [h6] at h
                exact absurd h (by simp)
              | some an =>
                rw [h6] at h
                simp only [someBind] at h
                cases h7 : parseBones d (decide (v ≤ 256)) with
                | none =>
                  rw [h7] at h
                  exact absurd h (by simp)
                | some bo =>
                  rw [h7] at h
                  simp only [someBind] at h
                  obtain rfl := Option.some.inj h
                  exact ⟨rfl, rfl, h2, h3, h4, h5, h6, h7⟩

/-- Claim C5 (amended): recovery from an invalid array field is per-field,
except for ceiling violations in the skin header.  (a) A skin whose declared
`ofsIndices + nIndices·2` exceeds the buffer (both counts otherwise in
range) decodes with an empty `vertexLookup` and an empty `resolvedIndices`
and no exception, while the triangle, submesh and batch fields are still
decoded, each by its own independent field decoder.  (b) Each M2 header
array field that is treated as count 0 — global sequences, vertices,
textures, texture lookup, bone lookup, animations — independently decodes to
the empty collection, with no exception, when its count exceeds its sanity
ceiling or its extent overflows the buffer; and (c) every field of a decoded
M2 model is exactly its own independent field decoder's output, so an
invalid field never disturbs the other fields.  (A zero or over-ceiling
vertex-lookup or triangle count in the skin header, by contrast, returns
early and leaves all remaining skin fields undecoded — see the
counterexample.) -/
theorem invalid_extent_yields_empty_field :
    (∀ (vanilla : Bool) (nPos : Nat) (s : List Nat) (off : Nat),
      48 ≤ s.length →
      off = (if s.take 4 = skinMagic then 4 else 0) →
      0 < leU32 s (off + 0) → leU32 s (off + 0) ≤ 500000 →
      0 < leU32 s (off + 8) → leU32 s (off + 8) ≤ 500000 →
      s.length < leU32 s (off + 4) + leU32 s (off + 0) * 2 →
      parseSkinData vanilla nPos s = some
        ⟨[], skinU16Field s (leU32 s (off + 12)) (leU32 s (off + 8)), [],
          skinSubmeshField s vanilla (leU32 s (off + 28)) (leU32 s (off + 24)),
          skinBatchField s (leU32 s (off + 36)) (leU32 s (off + 32))⟩) ∧
    (∀ (d : List Nat) (n o : Nat),
      readU32q d globalSeqHdr.1 = some n → readU32q d globalSeqHdr.2 = some o →
      (10000 < n ∨ d.length < o + n * 4) →
      parseGlobalSequences d = some []) ∧
    (∀ (d : List Nat) (vanilla : Bool) (n o : Nat),
      readU32q d (vertsHdr vanilla).1 = some n →
      readU32q d (vertsHdr vanilla).2 = some o →
      (500000 < n ∨ d.length < o + n * 48) →
      parseVertices d vanilla = some []) ∧
    (∀ (d : List Nat) (vanilla : Bool) (n o : Nat),
      readU32q d (texturesHdr vanilla).1 = some n →
      readU32q d (texturesHdr vanilla).2 = some o →
      (1000 < n ∨ d.length < o + n * 16) →
      parseTextures d vanilla = some []) ∧
    (∀ (d : List Nat) (vanilla : Bool) (n o : Nat),
      readU32q d (textureLookupHdr vanilla).1 = some n →
      readU32q d (textureLookupHdr vanilla).2 = some o →
      (10000 < n ∨ d.length < o + n * 2) →
      parseTextureLookup d vanilla = some []) ∧
    (∀ (d : List Nat) (vanilla : Bool) (n o : Nat),
      readU32q d (boneLookupHdr vanilla).1 = some n →
      readU32q d (boneLookupHdr vanilla).2 = some o →
      (10000 < n ∨ d.length < o + n * 2) →
      parseBoneLookup d vanilla = some []) ∧
    (∀ (d : List Nat) (vanilla : Bool) (n o : Nat),
      readU32q d animsHdr.1 = some n → readU32q d animsHdr.2 = some o →
      (5000 < n ∨ d.length < o + n * (if vanilla then 68 else 64)) →
      parseAnimations d vanilla = some []) ∧
    (∀ (d : List Nat) (m : M2Model), m2Parse d = some m →
      readU32q d 4 = some m.version ∧
      parseGlobalSequences d = some m.globalSequences ∧
      parseVertices d m.vanilla = some m.vertices ∧
      parseTextures d m.vanilla = some m.textures ∧
      parseTextureLookup d m.vanilla = some m.textureLookup ∧
      parseBoneLookup d m.vanilla = some m.boneLookup ∧
      parseAnimations d m.vanilla = some m.animations ∧
      parseBones d m.vanilla = some m.bones) :=
  ⟨parseSkinData_lookup_overflow, parseGlobalSequences_invalid,
    parseVertices_invalid, parseTextures_invalid, parseTextureLookup_invalid,
    parseBoneLookup_invalid, parseAnimations_invalid, m2Parse_fields⟩

/-- Claim C5 counterexample: `c5Buf` declares a vertex-lookup count of 500001
(over the 500000 sanity ceiling) while its triangle field — count 3, offset
40, entirely inside the 48-byte buffer — is valid; the claim requires the
triangle collection to still be decoded, but `parse_skin_data` returns early
and leaves it empty. -/
theorem skin_ceiling_violation_skips_other_fields_counterexample :
    leU32 c5Buf 8 = 3 ∧ leU32 c5Buf 12 + leU32 c5Buf 8 * 2 ≤ c5Buf.length ∧
    leU32 c5Buf 0 = 500001 ∧
    (parseSkinData false 0 c5Buf).map SkinState.triangles = some [] := by
  refine ⟨by decide, by decide, by decide, by decide⟩

set_option maxRecDepth 20000 in
theorem invalid_extent_yields_empty_field_witness :
    parseSkinData false 7 c5wBufA = some ⟨[], [5], [], [], []⟩ ∧
    parseGlobalSequences c5MultiBuf = some [] ∧
    parseVertices c5MultiBuf false = some [] ∧
    parseTextures c5MultiBuf false = some [] ∧
    parseTextureLookup c5MultiBuf false = some [] ∧
    parseBoneLookup c5MultiBuf false = some [] ∧
    parseAnimations c5MultiBuf false = some [] ∧
    parseBones c5MultiBuf false = some [] := by
  obtain ⟨hskin, hgs, hverts, htex, htexlk, hbonelk, hanims, hdec⟩ :=
    invalid_extent_yields_empty_field
  refine ⟨?_, ?_, ?_, ?_, ?_, ?_, ?_, ?_⟩
  · have h := hskin false 7 c5wBufA 0 (by decide) (by decide) (by decide)
      (by decide) (by decide) (by decide) (by decide)
    rw [h]
    decide
  · exact hgs c5MultiBuf 20001 0 (by decide) (by decide) (by decide)
  · exact hverts c5MultiBuf false 500001 0 (by decide) (by decide) (by decide)
  · exact htex c5MultiBuf false 1001 0 (by decide) (by decide) (by decide)
  · exact htexlk c5MultiBuf false 10001 0 (by decide) (by decide) (by decide)
  · exact hbonelk c5MultiBuf false 10001 0 (by decide) (by decide) (by decide)
  · exact hanims c5MultiBuf false 5001 0 (by decide) (by decide) (by decide)
  · exact (hdec c5MultiBuf ⟨257, false, [], [], [], [], [], [], []⟩
      (by rfl)).2.2.2.2.2.2.2

/-! ## Claim C9 -/

theorem parseGlobalSequences_none (d : List Nat) (h : d.length < 28) :
    parseGlobalSequences d = none := by
  unfold parseGlobalSequences
  rcases Nat.lt_or_ge d.length 24 with hl | hl
  · rw [readU32q_neg d globalSeqHdr.1 (by simp [globalSeqHdr]; omega)]
    rfl
  · rw [readU32q_pos d globalSeqHdr.1 (by simp [globalSeqHdr]; omega)]
    simp only [someBind]
    rw [readU32q_neg d globalSeqHdr.2 (by simp [globalSeqHdr]; omega)]
    rfl

theorem parseGlobalSequences_some (d : List Nat) (h : 28 ≤ d.length) :
    ∃ x, parseGlobalSequences d = some x := by
  unfold parseGlobalSequences
  rw [readU32q_pos d globalSeqHdr.1 (by simp [globalSeqHdr]; omega),
    readU32q_pos d globalSeqHdr.2 (by simp [globalSeqHdr]; omega)]
  simp only [someBind]
  split_ifs <;> exact ⟨_, rfl⟩

theorem parseVertices_none (d : List Nat) (vanilla : Bool)
    (h : d.length < (vertsHdr vanilla).2 + 4) :
    parseVertices d vanilla = none := by
  unfold parseVertices
  rcases Nat.lt_or_ge d.length ((vertsHdr vanilla).1 + 4) with hl | hl
  · rw [readU32q_neg d (vertsHdr vanilla).1 (by omega)]
    rfl
  · rw [readU32q_pos d (vertsHdr vanilla).1 (by omega)]
    simp only [someBind]
    rw [readU32q_neg d (vertsHdr vanilla).2 (by omega)]
    rfl

theorem parseVertices_some (d : List Nat) (vanilla : Bool)
    (h : (vertsHdr vanilla).2 + 4 ≤ d.length) :
    ∃ x, parseVertices d vanilla = some x := by
  unfold parseVertices
  rw [readU32q_pos d (vertsHdr vanilla).1
      (by cases vanilla <;> simp [vertsHdr] at h ⊢ <;> omega),
    readU32q_pos d (vertsHdr vanilla).2 (by omega)]
  simp only [someBind]
  split_ifs <;> exact ⟨_, rfl⟩

theorem parseTextures_none (d : List Nat) (vanilla : Bool)
    (h : d.length < (texturesHdr vanilla).2 + 4) :
    parseTextures d vanilla = none := by
  unfold parseTextures
  rcases Nat.lt_or_ge d.length ((texturesHdr vanilla).1 + 4) with hl | hl
  · rw [readU32q_neg d (texturesHdr vanilla).1 (by omega)]
    rfl
  · rw [readU32q_pos d (texturesHdr vanilla).1 (by omega)]
    simp only [someBind]
    rw [readU32q_neg d (texturesHdr vanilla).2 (by omega)]
    rfl

theorem parseTextures_some (d : List Nat) (vanilla : Bool)
    (h : (texturesHdr vanilla).2 + 4 ≤ d.length) :
    ∃ x, parseTextures d vanilla = some x := by
  unfold parseTextures
  rw [readU32q_pos d (texturesHdr vanilla).1
      (by cases vanilla <;> simp [texturesHdr] at h ⊢ <;> omega),
    readU32q_pos d (texturesHdr vanilla).2 (by omega)]
  simp only [someBind]
  split_ifs <;> exact ⟨_, rfl⟩

theorem parseTextureLookup_none (d : List Nat) (vanilla : Bool)
    (h : d.length < (textureLookupHdr vanilla).2 + 4) :
    parseTextureLookup d vanilla = none := by
  unfold parseTextureLookup
  rcases Nat.lt_or_ge d.length ((textureLookupHdr vanilla).1 + 4) with hl | hl
  · rw [readU32q_neg d (textureLookupHdr vanilla).1 (by omega)]
    rfl
  · rw [readU32q_pos d (textureLookupHdr vanilla).1 (by omega)]
    simp only [someBind]
    rw [readU32q_neg d (textureLookupHdr vanilla).2 (by omega)]
    rfl

/-- Claim C9: a buffer that passes the caller's 8-byte/magic check but is
shorter than the fixed header region read through the version-gated offset
tables (u32 header reads at offsets up to 152 in the legacy layout, 132 in
the current one) makes the M2 construction raise `struct.error` rather than
produce an empty model: M2 decoding is not total on arbitrary buffers. -/
theorem short_header_m2_construction_raises (d : List Nat)
    (h8 : 8 ≤ d.length) (_hmagic : d.take 4 = md20Magic)
    (hshort : d.length < if leU32 d 4 ≤ 256 then 156 else 136) :
    m2Parse d = none := by
  unfold m2Parse
  rw [readU32q_pos d 4 (by omega)]
  simp only [someBind]
  by_cases hv : leU32 d 4 ≤ 256
  · rw [if_pos hv] at hshort
    simp only [decide_eq_true hv]
    rcases Nat.lt_or_ge d.length 28 with h1 | h1
    · rw [parseGlobalSequences_none d h1]
      rfl
    · obtain ⟨gs, hgs⟩ := parseGlobalSequences_some d h1
      rw [hgs]
      simp only [someBind]
      rcases Nat.lt_or_ge d.length 76 with h2 | h2
      · rw [parseVertices_none d true (by simp [vertsHdr]; omega)]
        rfl
      · obtain ⟨vs, hvs⟩ := parseVertices_some d true (by simp [vertsHdr]; omega)
        rw [hvs]
        simp only [someBind]
        rcases Nat.lt_or_ge d.length 100 with h3 | h3
        · rw [parseTextures_none d true (by simp [texturesHdr]; omega)]
          rfl
        · obtain ⟨ts, hts⟩ := parseTextures_some d true
            (by simp [texturesHdr]; omega)
          rw [hts]
          simp only [someBind]
          rw [parseTextureLookup_none d true
            (by simp [textureLookupHdr]; omega)]
          rfl
  · rw [if_neg hv] at hshort
    simp only [decide_eq_false hv]
    rcases Nat.lt_or_ge d.length 28 with h1 | h1
    · rw [parseGlobalSequences_none d h1]
      rfl
    · obtain ⟨gs, hgs⟩ := parseGlobalSequences_some d h1
      rw [hgs]
      simp only [someBind]
      rcases Nat.lt_or_ge d.length 68 with h2 | h2
      · rw [parseVertices_none d false (by simp [vertsHdr]; omega)]
        rfl
      · obtain ⟨vs, hvs⟩ := parseVertices_some d false (by simp [vertsHdr]; omega)
        rw [hvs]
        simp only [someBind]
        rcases Nat.lt_or_ge d.length 88 with h3 | h3
        · rw [parseTextures_none d false (by simp [texturesHdr]; omega)]
          rfl
        · obtain ⟨ts, hts⟩ := parseTextures_some d false
            (by simp [texturesHdr]; omega)
          rw [hts]
          simp only [someBind]
          rw [parseTextureLookup_none d false
            (by simp [textureLookupHdr]; omega)]
          rfl

theorem short_header_m2_construction_raises_witness :
    m2Parse c9Buf = none :=
  short_header_m2_construction_raises c9Buf (by decide) (by decide) (by decide)

/-! ## Claim C8 -/

theorem chainP_le {d : List Nat} {p q : Nat} (h : ChainP d p q) : q ≤ p := by
  induction h with
  | refl => exact Nat.le_refl _
  | step q hq _ _ => exact Nat.le_of_lt hq

theorem inChain_sound (d : List Nat) (p : Nat) :
    ∀ fuel q, inChain d p q fuel = true → ChainP d p q := by
  intro fuel
  induction fuel with
  | zero =>
    intro q h
    unfold inChain at h
    obtain rfl : q = p := by simpa using h
    exact ChainP.refl
  | succ fuel ih =>
    intro q h
    unfold inChain at h
    rcases Bool.or_eq_true_iff.mp h with h1 | h2
    · obtain rfl : q = p := by simpa using h1
      exact ChainP.refl
    · obtain ⟨hlt, hrec⟩ := Bool.and_eq_true_iff.mp h2
      exact ChainP.step q (by simpa using hlt) (ih _ hrec)

theorem setTag_length (d : List Nat) (p : Nat) (T : List Nat)
    (hp : p + 4 ≤ d.length) (hT : T.length = 4) :
    (setTag d p T).length = d.length := by
  simp [setTag, hT]
  omega

theorem byteAt_setTag_lt (d : List Nat) (p : Nat) (T : List Nat) (i : Nat)
    (hp : p + 4 ≤ d.length) (hi : i < p) :
    byteAt (setTag d p T) i = byteAt d i := by
  unfold byteAt setTag
  rw [List.getD_eq_getElem?_getD, List.getD_eq_getElem?_getD]
  rw [List.append_assoc, List.getElem?_append_left (by simp; omega),
    List.getElem?_take_of_lt hi]

theorem byteAt_setTag_ge (d : List Nat) (p : Nat) (T : List Nat) (i : Nat)
    (hp : p + 4 ≤ d.length) (hT : T.length = 4) (hi : p + 4 ≤ i) :
    byteAt (setTag d p T) i = byteAt d i := by
  unfold byteAt setTag
  rw [List.getD_eq_getElem?_getD, List.getD_eq_getElem?_getD]
  have hlen : (d.take p ++ T).length = p + 4 := by
    simp [hT]
    omega
  rw [List.getElem?_append_right (by rw [hlen]; omega), hlen,
    List.getElem?_drop]
  have hidx : p + 4 + (i - (p + 4)) = i := by omega
  rw [hidx]

theorem byteAt_setTag_mid (d : List Nat) (p : Nat) (T : List Nat) (k : Nat)
    (hp : p + 4 ≤ d.length) (hT : T.length = 4) (hk : k < 4) :
    byteAt (setTag d p T) (p + k) = T.getD k 0 := by
  unfold byteAt setTag
  rw [List.getD_eq_getElem?_getD, List.getD_eq_getElem?_getD]
  have htake : (d.take p).length = p := by simp; omega
  rw [List.append_assoc, List.getElem?_append_right (by rw [htake]; omega),
    htake, Nat.add_sub_cancel_left, List.getElem?_append_left (by omega)]

theorem readTag_setTag (d : List Nat) (p : Nat) (T : List Nat)
    (hp : p + 4 ≤ d.length) (hT : T.length = 4) :
    readTag (setTag d p T) p = T := by
  have h0 : byteAt (setTag d p T) p = T.getD 0 0 := by
    simpa using byteAt_setTag_mid d p T 0 hp hT (by omega)
  have h1 := byteAt_setTag_mid d p T 1 hp hT (by omega)
  have h2 := byteAt_setTag_mid d p T 2 hp hT (by omega)
  have h3 := byteAt_setTag_mid d p T 3 hp hT (by omega)
  unfold readTag
  rw [h0, h1, h2, h3]
  rcases T with _ | ⟨a, T⟩
  · simp at hT
  rcases T with _ | ⟨b, T⟩
  · simp at hT
  rcases T with _ | ⟨c, T⟩
  · simp at hT
  rcases T with _ | ⟨e, T⟩
  · simp at hT
  rcases T with _ | ⟨f, T⟩
  · simp [List.getD]
  · simp at hT

theorem leU16_agree {d2 d : List Nat} {p : Nat} (h : AgreeOutside d2 d p)
    (i : Nat) (hi : i + 2 ≤ p ∨ p + 4 ≤ i) : leU16 d2 i = leU16 d i := by
  unfold leU16
  rw [h.2 i (by omega), h.2 (i + 1) (by omega)]

theorem leU32_agree {d2 d : List Nat} {p : Nat} (h : AgreeOutside d2 d p)
    (i : Nat) (hi : i + 4 ≤ p ∨ p + 4 ≤ i) : leU32 d2 i = leU32 d i := by
  unfold leU32
  rw [h.2 i (by omega), h.2 (i + 1) (by omega), h.2 (i + 2) (by omega),
    h.2 (i + 3) (by omega)]

theorem readU32q_agree {d2 d : List Nat} {p : Nat} (h : AgreeOutside d2 d p)
    (i : Nat) (hi : i + 4 ≤ p ∨ p + 4 ≤ i) : readU32q d2 i = readU32q d i := by
  unfold readU32q
  rw [h.1, leU32_agree h i hi]

theorem readTag_agree {d2 d : List Nat} {p : Nat} (h : AgreeOutside d2 d p)
    (i : Nat) (hi : i + 4 ≤ p ∨ p + 4 ≤ i) : readTag d2 i = readTag d i := by
  unfold readTag
  rw [h.2 i (by omega), h.2 (i + 1) (by omega), h.2 (i + 2) (by omega),
    h.2 (i + 3) (by omega)]

theorem parseVec3Chunk_agree {d2 d : List Nat} {p : Nat}
    (h : AgreeOutside d2 d p) (cs n : Nat)
    (hc : cs + 12 * n ≤ p ∨ p + 4 ≤ cs) :
    parseVec3Chunk d2 cs n = parseVec3Chunk d cs n := by
  unfold parseVec3Chunk
  rw [h.1]
  split_ifs with hb
  · congr 1
    apply List.map_congr_left
    intro i hi
    have hin := List.mem_range.mp hi
    funext k
    have hk := k.isLt
    have hcond : cs + 12 * i + 4 * (k : Nat) + 4 ≤ p ∨
        p + 4 ≤ cs + 12 * i + 4 * (k : Nat) := by
      rcases hc with hc | hc
      · left
        omega
      · right
        omega
    exact leU32_agree h _ hcond
  · rfl

theorem parseUVChunk_agree {d2 d : List Nat} {p : Nat}
    (h : AgreeOutside d2 d p) (cs n : Nat)
    (hc : cs + 8 * n ≤ p ∨ p + 4 ≤ cs) :
    parseUVChunk d2 cs n = parseUVChunk d cs n := by
  unfold parseUVChunk
  rw [h.1]
  split_ifs with hb
  · congr 1
    apply List.map_congr_left
    intro i hi
    have hin := List.mem_range.mp hi
    funext k
    have hk := k.isLt
    have hcond : cs + 8 * i + 4 * (k : Nat) + 4 ≤ p ∨
        p + 4 ≤ cs + 8 * i + 4 * (k : Nat) := by
      rcases hc with hc | hc
      · left
        omega
      · right
        omega
    exact leU32_agree h _ hcond
  · rfl

theorem parseIdxChunk_agree {d2 d : List Nat} {p : Nat}
    (h : AgreeOutside d2 d p) (cs n : Nat)
    (hc : cs + 2 * n ≤ p ∨ p + 4 ≤ cs) :
    parseIdxChunk d2 cs n = parseIdxChunk d cs n := by
  unfold parseIdxChunk
  rw [h.1]
  split_ifs with hb
  · congr 1
    apply List.map_congr_left
    intro i hi
    have hin := List.mem_range.mp hi
    have hcond : cs + 2 * i + 2 ≤ p ∨ p + 4 ≤ cs + 2 * i := by
      rcases hc with hc | hc
      · left
        omega
      · right
        omega
    exact leU16_agree h _ hcond
  · rfl

theorem parseBatchChunk_agree {d2 d : List Nat} {p : Nat}
    (h : AgreeOutside d2 d p) (cs n : Nat)
    (hc : cs + 24 * n ≤ p ∨ p + 4 ≤ cs) :
    parseBatchChunk d2 cs n = parseBatchChunk d cs n := by
  unfold parseBatchChunk
  rw [h.1]
  split_ifs with hb
  · congr 1
    apply List.map_congr_left
    intro i hi
    have hin := List.mem_range.mp hi
    have c1 : cs + 24 * i + 12 + 4 ≤ p ∨ p + 4 ≤ cs + 24 * i + 12 := by
      rcases hc with hc | hc
      · left
        omega
      · right
        omega
    have c2 : cs + 24 * i + 16 + 2 ≤ p ∨ p + 4 ≤ cs + 24 * i + 16 := by
      rcases hc with hc | hc
      · left
        omega
      · right
        omega
    have c3 : cs + 24 * i + 23 < p ∨ p + 4 ≤ cs + 24 * i + 23 := by
      rcases hc with hc | hc
      · left
        omega
      · right
        omega
    dsimp only
    rw [leU32_agree h _ c1, leU16_agree h _ c2, h.2 _ c3]
  · rfl

theorem dispatchChunk_agree {d2 d : List Nat} {p : Nat}
    (h : AgreeOutside d2 d p) (g : WMOGroupE) (cid : List Nat) (cs size : Nat)
    (hc : cs + size ≤ p ∨ p + 4 ≤ cs) :
    dispatchChunk g d2 cid cs size = dispatchChunk g d cid cs size := by
  have h12 : 12 * (size / 12) ≤ size := by
    have := Nat.div_mul_le_self size 12
    omega
  have h8 : 8 * (size / 8) ≤ size := by
    have := Nat.div_mul_le_self size 8
    omega
  have h2 : 2 * (size / 2) ≤ size := by
    have := Nat.div_mul_le_self size 2
    omega
  have h24 : 24 * (size / 24) ≤ size := by
    have := Nat.div_mul_le_self size 24
    omega
  unfold dispatchChunk
  split_ifs
  · rw [parseVec3Chunk_agree h cs (size / 12) (by omega)]
  · rw [parseIdxChunk_agree h cs (size / 2) (by omega)]
  · rw [parseVec3Chunk_agree h cs (size / 12) (by omega)]
  · rw [parseUVChunk_agree h cs (size / 8) (by omega)]
  · rw [parseBatchChunk_agree h cs (size / 24) (by omega)]
  · rfl

theorem chainP_cases {d : List Nat} {p pos : Nat} (h : ChainP d p pos) :
    pos = p ∨ (pos < p ∧ ChainP d p (stepPos d pos)) := by
  cases h with
  | refl => exact Or.inl rfl
  | step q hq hnext => exact Or.inr ⟨hq, hnext⟩

theorem scanGroup_agree {d2 d : List Nat} {p : Nat}
    (h : AgreeOutside d2 d p)
    (hcanon : canonTag (readTag d2 p) = canonTag (readTag d p)) :
    ∀ (fuel mend pos : Nat) (g : WMOGroupE),
      (ChainP d p pos ∨ p + 4 ≤ pos) →
      scanGroup d2 mend pos fuel g = scanGroup d mend pos fuel g := by
  intro fuel
  induction fuel with
  | zero =>
    intro mend pos g hpos
    rfl
  | succ fuel ih =>
    intro mend pos g hpos
    have hconds : (pos = p) ∨
        ((pos + 4 + 4 ≤ p ∨ p + 4 ≤ pos + 4) ∧
         (pos + 4 ≤ p ∨ p + 4 ≤ pos) ∧
         (∀ size, size = leU32 d (pos + 4) →
            (pos + 8 + size ≤ p ∨ p + 4 ≤ pos + 8)) ∧
         (∀ size, size = leU32 d (pos + 4) →
            (ChainP d p (pos + 8 + size) ∨ p + 4 ≤ pos + 8 + size))) := by
      rcases hpos with hch | hge
      · rcases chainP_cases hch with rfl | ⟨hq, hnext⟩
        · exact Or.inl rfl
        · have hstep_le : stepPos d pos ≤ p := chainP_le hnext
          have hq8 : pos + 8 ≤ p := by
            unfold stepPos at hstep_le
            omega
          refine Or.inr ⟨Or.inl (by omega), Or.inl (by omega), ?_, ?_⟩
          · intro size hsz
            left
            unfold stepPos at hstep_le
            omega
          · intro size hsz
            left
            have : pos + 8 + size = stepPos d pos := by
              unfold stepPos
              omega
            rw [this]
            exact hnext
      · exact Or.inr ⟨Or.inr (by omega), Or.inr (by omega),
          fun _ _ => Or.inr (by omega), fun _ _ => Or.inr (by omega)⟩
    unfold scanGroup
    by_cases hg : pos + 8 ≤ mend
    · rw [if_pos hg, if_pos hg]
      rcases hconds with rfl | ⟨c1, c2, c3, c4⟩
      · rw [readU32q_agree h (pos + 4) (Or.inr (by omega))]
        cases hcase : readU32q d (pos + 4) with
        | none => rfl
        | some size =>
          dsimp only
          by_cases hov : mend < pos + 8 + size
          · rw [if_pos hov, if_pos hov]
          · rw [if_neg hov, if_neg hov, hcanon,
              dispatchChunk_agree h g _ (pos + 8) size (Or.inr (by omega))]
            cases dispatchChunk g d (canonTag (readTag d pos)) (pos + 8) size with
            | none => rfl
            | some g1 => exact ih mend (pos + 8 + size) g1 (Or.inr (by omega))
      · rw [readU32q_agree h (pos + 4) c1]
        cases hcase : readU32q d (pos + 4) with
        | none => rfl
        | some size =>
          have hsize : size = leU32 d (pos + 4) := by
            unfold readU32q at hcase
            split_ifs at hcase
            exact (Option.some.inj hcase).symm
          dsimp only
          by_cases hov : mend < pos + 8 + size
          · rw [if_pos hov, if_pos hov]
          · rw [if_neg hov, if_neg hov, readTag_agree h pos c2,
              dispatchChunk_agree h g _ (pos + 8) size (c3 size hsize)]
            cases dispatchChunk g d (canonTag (readTag d pos)) (pos + 8) size with
            | none => rfl
            | some g1 => exact ih mend (pos + 8 + size) g1 (c4 size hsize)
    · rw [if_neg hg, if_neg hg]

theorem prescanFind_mono (d : List Nat) :
    ∀ (fuel pos r : Nat), prescanFind d pos fuel = some r → pos ≤ r := by
  intro fuel
  induction fuel with
  | zero =>
    intro pos r h
    exact absurd h (by simp [prescanFind])
  | succ fuel ih =>
    intro pos r h
    unfold prescanFind at h
    split_ifs at h with h1 h2
    · exact Nat.le_of_eq (Option.some.inj h)
    · have := ih _ _ h
      omega

theorem prescanFind_agree {d2 d : List Nat} {p : Nat}
    (h : AgreeOutside d2 d p)
    (hcanon : canonTag (readTag d2 p) = canonTag (readTag d p)) :
    ∀ (fuel pos : Nat), (ChainP d p pos ∨ p + 4 ≤ pos) →
      prescanFind d2 pos fuel = prescanFind d pos fuel := by
  intro fuel
  induction fuel with
  | zero =>
    intro pos hpos
    rfl
  | succ fuel ih =>
    intro pos hpos
    unfold prescanFind
    rw [h.1]
    by_cases hg : pos + 8 ≤ d.length
    · rw [if_pos hg, if_pos hg]
      rcases hpos with hch | hge
      · rcases chainP_cases hch with rfl | ⟨hq, hnext⟩
        · rw [hcanon, leU32_agree h (pos + 4) (Or.inr (by omega))]
          by_cases hm : canonTag (readTag d pos) = tagMOGP
          · rw [if_pos hm, if_pos hm]
          · rw [if_neg hm, if_neg hm]
            exact ih _ (Or.inr (by omega))
        · have hstep_le : stepPos d pos ≤ p := chainP_le hnext
          have hq8 : pos + 8 ≤ p := by
            unfold stepPos at hstep_le
            omega
          rw [readTag_agree h pos (Or.inl (by omega)),
            leU32_agree h (pos + 4) (Or.inl (by omega))]
          by_cases hm : canonTag (readTag d pos) = tagMOGP
          · rw [if_pos hm, if_pos hm]
          · rw [if_neg hm, if_neg hm]
            exact ih _ (Or.inl hnext)
      · rw [readTag_agree h pos (Or.inr (by omega)),
          leU32_agree h (pos + 4) (Or.inr (by omega))]
        by_cases hm : canonTag (readTag d pos) = tagMOGP
        · rw [if_pos hm, if_pos hm]
        · rw [if_neg hm, if_neg hm]
          exact ih _ (Or.inr (by omega))
    · rw [if_neg hg, if_neg hg]

theorem prescanFind_found_agree {d2 d : List Nat} {p : Nat}
    (h : AgreeOutside d2 d p) :
    ∀ (fuel pos qm : Nat), prescanFind d pos fuel = some qm → qm + 8 ≤ p →
      prescanFind d2 pos fuel = some qm := by
  intro fuel
  induction fuel with
  | zero =>
    intro pos qm hfind hqm
    exact absurd hfind (by simp [prescanFind])
  | succ fuel ih =>
    intro pos qm hfind hqm
    have hple : pos ≤ qm := prescanFind_mono d _ pos qm hfind
    unfold prescanFind at hfind ⊢
    rw [h.1]
    by_cases hg : pos + 8 ≤ d.length
    · rw [if_pos hg] at hfind ⊢
      rw [readTag_agree h pos (Or.inl (by omega)),
        leU32_agree h (pos + 4) (Or.inl (by omega))]
      by_cases hm : canonTag (readTag d pos) = tagMOGP
      · rw [if_pos hm] at hfind ⊢
        exact hfind
      · rw [if_neg hm] at hfind ⊢
        exact ih _ qm hfind hqm
    · rw [if_neg hg] at hfind
      exact absurd hfind (by simp)

/-- Claim C8: a geometry chunk (`MOVT`, `MOVI`, `MONR`, `MOTV`, `MOBA`)
whose 4-byte tag is stored byte-reversed (e.g. `TVOM` for `MOVT`) at any
chunk boundary `p` that `parse_group`'s scan walks is dispatched and parsed
identically to the same buffer carrying the forward tag: the decoded
positions, normals, UVs, indices, and batches are equal in both cases. -/
theorem wmo_reversed_tag_parses_identically (d : List Nat) (p : Nat)
    (T : List Nat)
    (hT : T = tagMOVT ∨ T = tagMOVI ∨ T = tagMONR ∨ T = tagMOTV ∨ T = tagMOBA)
    (hp : p + 4 ≤ d.length)
    (hrev : readTag d p = T.reverse)
    (hreach : reachesTag d p = true) :
    parseGroup (setTag d p T) = parseGroup d := by
  have hTfacts : canonTag T = T ∧ canonTag T.reverse = T ∧ T.length = 4 := by
    rcases hT with rfl | rfl | rfl | rfl | rfl <;>
      exact ⟨by decide, by decide, by decide⟩
  have hagree : AgreeOutside (setTag d p T) d p := by
    refine ⟨setTag_length d p T hp hTfacts.2.2, fun i hi => ?_⟩
    rcases hi with hi | hi
    · exact byteAt_setTag_lt d p T i hp hi
    · exact byteAt_setTag_ge d p T i hp hTfacts.2.2 hi
  have htag2 : readTag (setTag d p T) p = T := readTag_setTag d p T hp hTfacts.2.2
  have hcanon : canonTag (readTag (setTag d p T) p) = canonTag (readTag d p) := by
    rw [htag2, hrev, hTfacts.1, hTfacts.2.1]
  unfold parseGroup
  rw [hagree.1]
  unfold reachesTag at hreach
  cases hpf : prescanFind d 0 (d.length + 1) with
  | none =>
    have hchain : ChainP d p 0 := by
      rw [hpf] at hreach
      exact inChain_sound d p _ 0 hreach
    rw [prescanFind_agree hagree hcanon _ 0 (Or.inl hchain), hpf]
    exact scanGroup_agree hagree hcanon _ d.length 0 {} (Or.inl hchain)
  | some qm =>
    have hchain : ChainP d p (qm + 76) := by
      rw [hpf] at hreach
      exact inChain_sound d p _ _ hreach
    have hqp : qm + 76 ≤ p := chainP_le hchain
    rw [prescanFind_found_agree hagree _ 0 qm hpf (by omega)]
    dsimp only
    rw [leU32_agree hagree (qm + 4) (Or.inl (by omega))]
    exact scanGroup_agree hagree hcanon _ _ (qm + 76) {} (Or.inl hchain)

theorem wmo_reversed_tag_parses_identically_witness :
    parseGroup (setTag c8Buf 0 tagMOVT) = parseGroup c8Buf :=
  wmo_reversed_tag_parses_identically c8Buf 0 tagMOVT (Or.inl rfl)
    (by decide) (by decide) (by decide)
